import Mathlib

/-!
Verification of the Helicone Temporal repository-integration orchestrator.

The workflow in `src/workflows.ts` is embedded shallowly: Temporal activity
calls become reads from an `Env` record of activity outcomes, and the
workflow's externally visible behaviour is a trace of events (status reports
and activity invocations) plus an outcome (normal return or raised error).
-/

namespace HeliconeIntegration

/-- Input to an orchestration instance (`RepositoryIntegrationInput` in
`src/workflows.ts`). -/
structure RepositoryIntegrationInput where
  repoUrl : String
  repoOwner : String
  repoName : String
  integrationId : String
deriving DecidableEq, Repr

/-- A human review decision (`ReviewDecision` in `src/workflows.ts`).
`feedback = none` models the absent (`undefined`) field; the TS code tests
the field's truthiness, so `some ""` is also treated as no feedback. -/
structure ReviewDecision where
  approved : Bool
  feedback : Option String := none
deriving DecidableEq, Repr

/-- JavaScript truthiness test `!decision.feedback` on the optional string. -/
def feedbackMissing (f : Option String) : Bool :=
  match f with
  | none => true
  | some s => s = ""

/-- Result of the fork activity (`ForkResult` in `src/workflows.ts`). -/
structure ForkResult where
  forkOwner : String
  forkName : String
  cloneUrl : String
  defaultBranch : String
deriving DecidableEq, Repr

/-- The file-change lists returned by `runClaudeCode` (its `changes` field). -/
structure Changes where
  modifiedFiles : List String
  addedFiles : List String
deriving DecidableEq, Repr

/-- Result of the `runClaudeCode` activity (`src/activities.ts`). -/
structure ClaudeResult where
  changes : Changes
  summary : String
  changesSummary : String
  sessionId : Option String
deriving DecidableEq, Repr

/-- Result of the `applyClaudeCodeFeedback` activity (`src/activities.ts`). -/
structure FeedbackResult where
  success : Bool
  summary : String
deriving DecidableEq, Repr

/-- A created pull request as returned by `createPullRequest`. -/
structure PRResult where
  number : Nat
  url : String
  state : String
deriving DecidableEq, Repr

/-- The input record of the `createPullRequest` activity. -/
structure PRRequest where
  owner : String
  repo : String
  head : String
  base : String
  title : String
  body : String
deriving DecidableEq, Repr

/-- The input record of the `updateIntegrationStatus` activity. -/
structure StatusUpdate where
  integrationId : String
  status : String
  message : String
  stagingUrl : Option String := none
  prUrl : Option String := none
deriving DecidableEq, Repr

/-- Externally visible events of one workflow run: every status report and
every leaf activity invocation, in order.  `resetDecision` marks the
`resetReviewDecision()` call clearing the signal slot; `waitReview` marks the
`condition(...)` suspension point in `waitForReview`. -/
inductive Event where
  | report (u : StatusUpdate)
  | callFork (owner repo : String)
  | callClone (repoUrl branch : String)
  | callClaude (repoPath task : String)
  | callStaging (repoPath branchName : String)
  | callCreatePR (req : PRRequest)
  | callFeedback (repoPath : String) (sessionId : Option String)
      (feedback branchName : String)
  | resetDecision
  | waitReview
deriving DecidableEq, Repr

/-- Environment fixing the outcome of every activity call: the `fork`,
`clone`, `claude` and `staging` activities run at most once; `createPR`
answers as a function of its request; the `k`-th feedback application and the
`k`-th suspension read the `k`-th entry of `feedback` / `decisions`
(`decisions k = none` models the 7-day timeout); `report` gives the outcome
of each status-report call. -/
structure Env where
  fork : Except String ForkResult
  clone : Except String String
  claude : Except String ClaudeResult
  staging : Except String Unit
  createPR : PRRequest → Except String PRResult
  feedback : Nat → Except String FeedbackResult
  decisions : Nat → Option ReviewDecision
  report : StatusUpdate → Except String Unit

/-- Mutable run state: the event trace plus how many feedback applications
and review suspensions have happened. -/
structure WfState where
  trace : List Event := []
  fbIdx : Nat := 0
  decIdx : Nat := 0
deriving Repr

/-- The workflow computation type: reads the environment, threads the run
state, and either returns a value or raises an error (a thrown JS `Error`,
carried as its message string). -/
def WfM (α : Type) := Env → WfState → WfState × Except String α

instance : Monad WfM where
  pure a := fun _ s => (s, .ok a)
  bind x f := fun env s =>
    match x env s with
    | (s', .ok a) => f a env s'
    | (s', .error e) => (s', .error e)

/-- Model of `try { x } catch (error) { handler(error) }`. -/
def tryCatchW {α : Type} (x : WfM α) (handler : String → WfM α) : WfM α :=
  fun env s =>
    match x env s with
    | (s', .ok a) => (s', .ok a)
    | (s', .error e) => handler e env s'

/-- Raise an error (`throw new Error(msg)`). -/
def throwErr {α : Type} (msg : String) : WfM α := fun _ s => (s, .error msg)

/-- Record an event without touching the call counters. -/
def emit (e : Event) : WfM Unit :=
  fun _ s => ({ s with trace := s.trace ++ [e] }, .ok ())

/-! ### JavaScript string primitives

The activity code in `src/activities.ts` parses `git` output with
`trim`, `split('\n')`, `split(/\s+/)`, `join(' ')`, `toLowerCase` and
`includes`.  Lean's built-in `String` operations are not kernel-reducible,
so these JavaScript operations are modelled directly on the character
list of the string (exact for the ASCII data involved). -/

/-- Model of `String.prototype.trim`: drop leading and trailing whitespace. -/
def jsTrimL (l : List Char) : List Char :=
  ((l.dropWhile Char.isWhitespace).reverse.dropWhile Char.isWhitespace).reverse

/-- Model of `String.prototype.trim` on strings. -/
def jsTrim (s : String) : String := String.mk (jsTrimL s.data)

/-- Split at every character satisfying `p`, keeping empty pieces
(the splitting skeleton shared by `split('\n')` and `split(/\s+/)`). -/
def splitEveryL (p : Char → Bool) : List Char → List (List Char)
  | [] => [[]]
  | c :: rest =>
    let r := splitEveryL p rest
    if p c then [] :: r
    else
      match r with
      | [] => [[c]]
      | h :: t => (c :: h) :: t

/-- Model of `String.prototype.split('\n')`. -/
def jsSplitLines (s : String) : List String :=
  (splitEveryL (fun c => c = '\n') s.data).map String.mk

/-- Model of `String.prototype.split(/\s+/)`.  On an already-trimmed string (the only
way the source applies it) the regex `\s+` eats each maximal whitespace run,
which equals splitting at every whitespace character and discarding the empty
pieces produced inside a run. -/
def jsSplitWS (s : String) : List String :=
  ((splitEveryL Char.isWhitespace s.data).filter (fun w => w ≠ [])).map String.mk

/-- Model of `String.prototype.toLowerCase` (ASCII, as in the commit messages
involved). -/
def jsToLower (s : String) : String := String.mk (s.data.map Char.toLower)

/-- Whether `sub` occurs contiguously inside `l`. -/
def includesSeq (l sub : List Char) : Bool :=
  sub.isPrefixOf l ||
    match l with
    | [] => false
    | _ :: rest => includesSeq rest sub

/-- Model of `String.prototype.includes`. -/
def jsIncludes (s sub : String) : Bool := includesSeq s.data sub.data

/-! ### Activity-level models (`src/activities.ts`) -/

/-- Model of `getGitChanges` (`src/activities.ts:325-341`): parse
`git status --porcelain` output.  Each non-blank line is trimmed and split on
whitespace; the first token is the status, the rest re-joined with single
spaces is the file name.  `'M'` lines feed `modifiedFiles`, `'A'` and `'??'`
lines feed `addedFiles`; every other status is ignored. -/
def getGitChanges (gitStatus : String) : List String × List String :=
  let changes := (jsSplitLines gitStatus).filter (fun line => jsTrim line ≠ "")
  changes.foldl
    (fun acc change =>
      match jsSplitWS (jsTrim change) with
      | [] => acc
      | status :: fileParts =>
        let file := String.intercalate " " fileParts
        let acc1 := if status = "M" then (acc.1 ++ [file], acc.2) else acc
        if status = "A" || status = "??" then (acc1.1, acc1.2 ++ [file]) else acc1)
    ([], [])

/-- The local git state `createStagingBranch` inspects: the
`git status --porcelain` output and the subject of the most recent commit
(`none` when `git log -1` fails because no commit exists). -/
structure GitWorkspace where
  statusOutput : String
  lastCommitMessage : Option String
deriving DecidableEq, Repr

/-- Outcome of the staging-branch activity: either the branch was created and
pushed (recording whether the agent's own commit was reused, `hasCommit` in
the source, instead of the orchestrator committing), or a
`GitOperationError` was raised before any branch was created or pushed. -/
inductive StagingOutcome where
  | pushed (agentCommitted : Bool)
  | gitError (msg : String)
deriving DecidableEq, Repr

/-- The decision logic of `createStagingBranch` (`src/activities.ts:361-445`)
as a function of the inspected git state.  When the working tree is clean it
decides whether the agent already committed by checking that the last commit
message is non-empty (JS truthiness) and contains `"helicone"` after
lowercasing; with a clean tree and no such commit it raises
`GitOperationError('No changes to commit')`, re-wrapped by the surrounding
catch into `'Failed to create staging branch: ...'`.  Otherwise it creates
and pushes the branch, committing first only when the tree is dirty and the
agent had not committed.  (Failures of the external git commands themselves
are outside this model.) -/
def createStagingBranchGit (git : GitWorkspace) : StagingOutcome :=
  let statusOutput := git.statusOutput
  let hasCommit :=
    if jsTrim statusOutput = "" then
      match git.lastCommitMessage with
      | some lastCommit => lastCommit ≠ "" && jsIncludes (jsToLower lastCommit) "helicone"
      | none => false
    else false
  if !hasCommit && jsTrim statusOutput = "" then
    .gitError ("Failed to create staging branch: " ++ "No changes to commit")
  else
    .pushed hasCommit

/-! ### Workflow-visible activity calls

Each proxied activity records its invocation in the trace and takes its
result from the environment. -/

/-- The `updateIntegrationStatus` activity call.  The bundled implementation
(`src/activities.ts:470-488`) only logs; `env.report` gives the outcome the
workflow observes for the call, and the source awaits it unguarded. -/
def updateIntegrationStatus (u : StatusUpdate) : WfM Unit :=
  fun env s => ({ s with trace := s.trace ++ [.report u] }, env.report u)

/-- The `forkRepository` activity call. -/
def forkRepository (owner repo : String) : WfM ForkResult :=
  fun env s => ({ s with trace := s.trace ++ [.callFork owner repo] }, env.fork)

/-- The `cloneRepository` activity call; returns `repoPath`. -/
def cloneRepository (repoUrl branch : String) : WfM String :=
  fun env s => ({ s with trace := s.trace ++ [.callClone repoUrl branch] }, env.clone)

/-- The `runClaudeCode` activity call. -/
def runClaudeCode (repoPath task : String) : WfM ClaudeResult :=
  fun env s => ({ s with trace := s.trace ++ [.callClaude repoPath task] }, env.claude)

/-- The `createStagingBranch` activity call as seen by the workflow. -/
def createStagingBranchCall (repoPath branchName : String) : WfM Unit :=
  fun env s => ({ s with trace := s.trace ++ [.callStaging repoPath branchName] }, env.staging)

/-- The `createPullRequest` activity call. -/
def createPullRequest (req : PRRequest) : WfM PRResult :=
  fun env s => ({ s with trace := s.trace ++ [.callCreatePR req] }, env.createPR req)

/-- The `applyClaudeCodeFeedback` activity call; the `k`-th application reads
`env.feedback k`. -/
def applyClaudeCodeFeedback (repoPath : String) (sessionId : Option String)
    (feedback branchName : String) : WfM FeedbackResult :=
  fun env s =>
    ({ s with trace := s.trace ++ [.callFeedback repoPath sessionId feedback branchName],
              fbIdx := s.fbIdx + 1 },
      env.feedback s.fbIdx)

/-- The `condition(() => getReviewDecision() !== undefined, '7 days')`
suspension: the `k`-th wait observes `env.decisions k`; `none` is the
7-day timeout, `some d` means the condition fired with `d` in the slot. -/
def awaitDecision : WfM (Option ReviewDecision) :=
  fun env s =>
    ({ s with trace := s.trace ++ [.waitReview], decIdx := s.decIdx + 1 },
      .ok (env.decisions s.decIdx))

/-! ### The workflow (`src/workflows.ts`) -/

/-- Embedding of `setupRepository` (`src/workflows.ts:98-124`). -/
def setupRepository (input : RepositoryIntegrationInput) :
    WfM (String × ForkResult) := do
  updateIntegrationStatus
    { integrationId := input.integrationId, status := "forking",
      message := "Forking repository..." }
  let forkInfo ← forkRepository input.repoOwner input.repoName
  updateIntegrationStatus
    { integrationId := input.integrationId, status := "cloning",
      message := "Cloning repository..." }
  let repoPath ← cloneRepository forkInfo.cloneUrl forkInfo.defaultBranch
  pure (repoPath, forkInfo)

/-- Embedding of `runClaudeIntegration` (`src/workflows.ts:225-252`): run the agent once;
`none` means no modified or added files were reported and the completed
status was already emitted. -/
def runClaudeIntegration (input : RepositoryIntegrationInput) (repoPath : String) :
    WfM (Option ClaudeResult) := do
  updateIntegrationStatus
    { integrationId := input.integrationId, status := "integrating",
      message := "Running Claude Code to add Helicone integration..." }
  let claudeResult ← runClaudeCode repoPath "Add Helicone integration"
  let hasChanges :=
    claudeResult.changes.modifiedFiles.length > 0 ||
      claudeResult.changes.addedFiles.length > 0
  if hasChanges then
    pure (some claudeResult)
  else do
    updateIntegrationStatus
      { integrationId := input.integrationId, status := "completed",
        message := "No changes needed - this repository may not use supported LLM providers directly." }
    pure none

/-- Embedding of `formatReviewPRBody` (`src/workflows.ts:355-375`). -/
def formatReviewPRBody (input : RepositoryIntegrationInput)
    (claudeResult : ClaudeResult) : String :=
  "## 🔍 Review Required

This PR adds Helicone observability to track and monitor LLM usage.

" ++ claudeResult.summary ++ "

## Changes

" ++ claudeResult.changesSummary ++ "

## Next Steps

1. Review the changes in this PR
2. If approved, run: `npm run review " ++ input.integrationId ++ " approve`
3. If changes needed, run: `npm run review " ++ input.integrationId ++ " reject \"feedback here\"`

---

*This PR was generated with [Helicone Temporal Integration](https://github.com/Helicone/helicone)*"

/-- Embedding of `formatFinalPRBody` (`src/workflows.ts:377-425`); `sessionId` is accepted
but unused, as in the source. -/
def formatFinalPRBody (attemptCount : Nat) (sessionId : Option String) : String :=
  let body := "## 🚀 Add Helicone Observability for LLM Monitoring

This PR integrates [Helicone](https://helicone.ai) to provide comprehensive observability for your LLM API calls.

### 🎯 What is Helicone?

Helicone is a proxy-based observability platform that provides:
- **Real-time monitoring** of all LLM API calls
- **Cost tracking** and usage analytics
- **Latency metrics** and performance insights
- **Error tracking** and debugging tools
- **Custom tagging** and filtering capabilities
- **Zero latency overhead** (adds <10ms)

### 💡 Benefits for Your Application

1. **Cost Control**: Track exactly how much you're spending on LLM APIs
2. **Performance Monitoring**: Identify slow requests and optimize accordingly
3. **Error Detection**: Catch and debug API failures quickly
4. **Usage Analytics**: Understand which features consume the most tokens
5. **Compliance**: Maintain audit logs of all LLM interactions

### 🔧 How It Works

This integration routes your existing LLM API calls through Helicone's proxy endpoints. No new dependencies are added - just configuration changes to your existing LLM clients.

### 📊 Next Steps

1. Set your `HELICONE_API_KEY` environment variable
2. Visit your [Helicone Dashboard](https://helicone.ai/dashboard) to view metrics
3. Set up alerts for cost thresholds or error rates

"
  let body :=
    if attemptCount > 1 then
      body ++ "### 🔄 Review Process

This integration was refined through " ++ toString attemptCount ++ " iterations based on review feedback.

"
    else body
  body ++ "---

*This PR was generated with [Helicone Temporal Integration](https://github.com/Helicone/helicone)*"

/-- The staging branch name computed at `src/workflows.ts:140`:
``` `helicone-integration-${input.integrationId}` ```. -/
def stagingBranchName (input : RepositoryIntegrationInput) : String :=
  "helicone-integration-" ++ input.integrationId

/-- Embedding of `createReviewPullRequest` (`src/workflows.ts:254-298`).  `attemptCount`
and `reviewDecision` are accepted but unused, as in the source. -/
def createReviewPullRequest (input : RepositoryIntegrationInput)
    (repoPath : String) (claudeResult : ClaudeResult) (branchName : String)
    (attemptCount : Nat) (reviewDecision : Option ReviewDecision)
    (forkInfo : ForkResult) : WfM Unit := do
  updateIntegrationStatus
    { integrationId := input.integrationId, status := "pushing",
      message := "Creating staging branch with changes..." }
  createStagingBranchCall repoPath branchName
  updateIntegrationStatus
    { integrationId := input.integrationId, status := "creating_review_pr",
      message := "Creating pull request in fork for review..." }
  let reviewPr ← createPullRequest
    { owner := forkInfo.forkOwner, repo := forkInfo.forkName,
      head := branchName, base := forkInfo.defaultBranch,
      title := "[REVIEW] Add Helicone observability integration",
      body := formatReviewPRBody input claudeResult }
  updateIntegrationStatus
    { integrationId := input.integrationId, status := "awaiting_review",
      message := "Review PR created. Awaiting review...",
      stagingUrl := some reviewPr.url }

/-- Embedding of `waitForReview` (`src/workflows.ts:300-321`): suspend up to 7 days;
on timeout report `failed` and return `none`, otherwise return the decision. -/
def waitForReview (input : RepositoryIntegrationInput) :
    WfM (Option ReviewDecision) := do
  let received ← awaitDecision
  match received with
  | none => do
    updateIntegrationStatus
      { integrationId := input.integrationId, status := "failed",
        message := "Review timed out after 7 days." }
    pure none
  | some decision => pure (some decision)

/-- How the review loop of `performIntegration` ends. -/
inductive LoopExit where
  | timedOut
  | feedbackFailed
  | approved (attemptCount : Nat)
  | maxedOut (attemptCount : Nat)
deriving DecidableEq, Repr

/-- The `while (!integrationComplete && attemptCount < 3)` loop of
`performIntegration` (`src/workflows.ts:150-211`).  `fuel` is maintained equal
to `3 - attemptCount`, so `fuel = 0` is exactly the failure of the guard
`attemptCount < 3`; the guard cannot fail with `integrationComplete = true`
because approval returns from the loop at once (`LoopExit.approved`).
`attemptCount` is incremented before the `applying_feedback` report, whose
message carries the incremented value, exactly as in the source. -/
def reviewLoop (input : RepositoryIntegrationInput)
    (repoPath branchName : String) (sessionId : Option String)
    (fuel attemptCount : Nat) : WfM LoopExit :=
  if fuel = 0 then pure (.maxedOut attemptCount)
  else do
    emit .resetDecision
    let reviewDecision? ← waitForReview input
    match reviewDecision? with
    | none => pure .timedOut
    | some reviewDecision =>
      if reviewDecision.approved then
        pure (.approved attemptCount)
      else if feedbackMissing reviewDecision.feedback then do
        updateIntegrationStatus
          { integrationId := input.integrationId, status := "rejected",
            message := "Changes rejected without feedback" }
        throwErr "Changes rejected without feedback"
      else do
        updateIntegrationStatus
          { integrationId := input.integrationId, status := "applying_feedback",
            message := "Applying feedback (attempt " ++ toString (attemptCount + 1) ++ ")..." }
        let feedbackResult ← applyClaudeCodeFeedback repoPath sessionId
          (reviewDecision.feedback.getD "") branchName
        if feedbackResult.success then do
          updateIntegrationStatus
            { integrationId := input.integrationId, status := "awaiting_review",
              message := "Feedback applied. Awaiting re-review..." }
          reviewLoop input repoPath branchName sessionId (fuel - 1) (attemptCount + 1)
        else do
          updateIntegrationStatus
            { integrationId := input.integrationId, status := "failed",
              message := "Failed to apply feedback: " ++ feedbackResult.summary }
          pure .feedbackFailed
termination_by fuel
decreasing_by omega

/-- The record `performIntegration` returns on approval. -/
structure IntegrationOutcome where
  branchName : String
  attemptCount : Nat
  claudeSessionId : Option String
deriving DecidableEq, Repr

/-- Embedding of `performIntegration` (`src/workflows.ts:126-223`): initial agent run,
review PR, then the review loop starting at attempt ordinal 1 (fuel
`2 = 3 - 1`).  Returns `none` where the source returns `null`. -/
def performIntegration (input : RepositoryIntegrationInput) (repoPath : String)
    (forkInfo : ForkResult) : WfM (Option IntegrationOutcome) := do
  let claudeResult? ← runClaudeIntegration input repoPath
  match claudeResult? with
  | none => pure none
  | some claudeResult =>
    let branchName := stagingBranchName input
    let sessionId := claudeResult.sessionId
    createReviewPullRequest input repoPath claudeResult branchName 1 none forkInfo
    let loopExit ← reviewLoop input repoPath branchName sessionId 2 1
    match loopExit with
    | .timedOut => pure none
    | .feedbackFailed => pure none
    | .approved attemptCount =>
      pure (some ⟨branchName, attemptCount, sessionId⟩)
    | .maxedOut _ => do
      updateIntegrationStatus
        { integrationId := input.integrationId, status := "rejected",
          message := "Maximum feedback attempts reached" }
      throwErr "Maximum feedback attempts reached"

/-- Embedding of `createFinalPullRequest` (`src/workflows.ts:323-351`).  Note the base
branch of the final pull request is the string literal `'main'`. -/
def createFinalPullRequest (input : RepositoryIntegrationInput)
    (forkInfo : ForkResult) (branchName : String) (attemptCount : Nat)
    (sessionId : Option String) : WfM Unit := do
  updateIntegrationStatus
    { integrationId := input.integrationId, status := "creating_pr",
      message := "Review approved! Creating pull request to original repository..." }
  let finalPr ← createPullRequest
    { owner := input.repoOwner, repo := input.repoName,
      head := forkInfo.forkOwner ++ ":" ++ branchName, base := "main",
      title := "🚀 Add Helicone observability for LLM monitoring",
      body := formatFinalPRBody attemptCount sessionId }
  updateIntegrationStatus
    { integrationId := input.integrationId, status := "completed",
      message := "Successfully created pull request!",
      prUrl := some finalPr.url }

/-- The `try` body of `repositoryIntegrationWorkflow`
(`src/workflows.ts:64-87`): fork and clone, run the integration loop, and —
unless the loop returned `null` ("Workflow already updated status, just
return") — create the final pull request. -/
def integrationMain (input : RepositoryIntegrationInput) : WfM Unit := do
  let (repoPath, forkInfo) ← setupRepository input
  let integrationResult? ← performIntegration input repoPath forkInfo
  match integrationResult? with
  | none => pure ()
  | some r =>
    createFinalPullRequest input forkInfo r.branchName r.attemptCount
      r.claudeSessionId

/-- Embedding of `repositoryIntegrationWorkflow` (`src/workflows.ts:52-96`): the body in a
`try`, whose `catch` reports `failed` with the error's message and re-raises. -/
def repositoryIntegrationWorkflow (input : RepositoryIntegrationInput) :
    WfM Unit :=
  tryCatchW (integrationMain input)
    (fun e => do
      updateIntegrationStatus
        { integrationId := input.integrationId, status := "failed",
          message := "Integration failed: " ++ e }
      throwErr e)

/-- Run one workflow instance from the empty trace. -/
def runIntegrationWorkflow (env : Env) (input : RepositoryIntegrationInput) :
    WfState × Except String Unit :=
  repositoryIntegrationWorkflow input env {}

/-! ### Trace observations -/

/-- Is this event an invocation of the `runClaudeCode` activity? -/
def isClaudeCall : Event → Bool
  | .callClaude .. => true
  | _ => false

/-- Is this event an invocation of the `applyClaudeCodeFeedback` activity? -/
def isFeedbackCall : Event → Bool
  | .callFeedback .. => true
  | _ => false

/-- Is this event an invocation of the `createStagingBranch` activity? -/
def isStagingCall : Event → Bool
  | .callStaging .. => true
  | _ => false

/-- Is this event an invocation of the `createPullRequest` activity? -/
def isCreatePRCall : Event → Bool
  | .callCreatePR .. => true
  | _ => false

/-- Is this event the suspension on the review signal? -/
def isWaitReview : Event → Bool
  | .waitReview => true
  | _ => false

/-- The branch name carried by a feedback invocation, if any. -/
def feedbackBranch : Event → Option String
  | .callFeedback _ _ _ branchName => some branchName
  | _ => none

/-- The status string of a report event, if any. -/
def reportStatus : Event → Option String
  | .report u => some u.status
  | _ => none

/-- The model of the bundled `updateIntegrationStatus` implementation
(`src/activities.ts:470-488`): it only logs the update and returns, so as a
local call it never raises. -/
def updateIntegrationStatusImpl (input : StatusUpdate) : Except String Unit :=
  .ok ()

/-- One parsed `git status --porcelain` entry: the first whitespace-delimited
token (the status) paired with the remaining tokens re-joined by single
spaces (the file), exactly the destructuring
`const [status, ...fileParts] = change.trim().split(/\s+/)` performs. -/
def porcelainEntries (gitStatus : String) : List (String × String) :=
  ((jsSplitLines gitStatus).filter (fun line => jsTrim line ≠ "")).filterMap
    (fun change =>
      match jsSplitWS (jsTrim change) with
      | [] => none
      | status :: fileParts => some (status, String.intercalate " " fileParts))


/-- Property `TraceDelta x P`: running `x` from any state, in any environment, appends
a trace delta satisfying `P`. -/
def TraceDelta {α : Type} (x : WfM α) (P : List Event → Prop) : Prop :=
  ∀ env s, ∃ d, (x env s).1.trace = s.trace ++ d ∧ P d

/-- Delta property: the delta contains no Code-Change-Agent invocation of
either kind (neither `runClaudeCode` nor `applyClaudeCodeFeedback`). -/
def NoAgentCalls (d : List Event) : Prop :=
  d.filterMap feedbackBranch = [] ∧ d.countP isClaudeCall = 0


/-! ### Concrete fixtures (the spec §8 happy-path scenario and variants) -/

/-- The spec §8 scenario input. -/
def sampleInput : RepositoryIntegrationInput :=
  ⟨"https://github.com/acme/widgets", "acme", "widgets", "abc123"⟩

/-- A fork of the scenario repository whose default branch is `main`. -/
def sampleFork : ForkResult :=
  ⟨"integration-bot", "widgets", "https://github.com/integration-bot/widgets.git", "main"⟩

/-- A fork whose default branch (matching its upstream's) is `master`. -/
def sampleForkMaster : ForkResult :=
  ⟨"integration-bot", "widgets", "https://github.com/integration-bot/widgets.git", "master"⟩

/-- An agent result that modified one file. -/
def sampleClaude : ClaudeResult :=
  ⟨⟨["src/client.ts"], []⟩, "Added Helicone proxy configuration",
    "### Modified Files:\n- src/client.ts", some "sess-1"⟩

/-- Environment in which every activity succeeds and the first review
decision approves. -/
def approveEnv : Env :=
  { fork := .ok sampleFork
    clone := .ok "/tmp/helicone-integration-1"
    claude := .ok sampleClaude
    staging := .ok ()
    createPR := fun _ => .ok ⟨7, "https://github.com/pr/7", "open"⟩
    feedback := fun _ => .ok ⟨true, "applied"⟩
    decisions := fun _ => some ⟨true, none⟩
    report := fun _ => .ok () }

/-- Like `approveEnv` but every review decision rejects with feedback. -/
def alwaysRejectEnv : Env :=
  { approveEnv with decisions := fun _ => some ⟨false, some "add error handling"⟩ }

/-- Like `approveEnv` but no review decision ever arrives (7-day timeout). -/
def timeoutEnv : Env :=
  { approveEnv with decisions := fun _ => none }

/-- Like `approveEnv` but the first agent run produces no file changes. -/
def noChangesEnv : Env :=
  { approveEnv with claude := .ok ⟨⟨[], []⟩, "Nothing to do", "No file changes detected.", some "sess-1"⟩ }

/-- Like `approveEnv` but the fork (hence its upstream) defaults to
`master`, and the reviewer approves at once. -/
def masterForkEnv : Env :=
  { approveEnv with fork := .ok sampleForkMaster }

/-- Like `alwaysRejectEnv` but the feedback application reports that no
changes were produced. -/
def feedbackNoChangesEnv : Env :=
  { alwaysRejectEnv with
      feedback := fun _ => .ok ⟨false, "No changes were made in response to the feedback"⟩ }

/-- Environment whose status reporter fails on the very first (`forking`)
report and succeeds afterwards. -/
def reportFailEnv : Env :=
  { approveEnv with
      report := fun u => if u.status = "forking" then .error "status reporter unavailable" else .ok () }

/-- The porcelain output of a run that only deleted and renamed files. -/
def deleteRenameStatus : String :=
  "D  gone.ts\nR  old.ts -> new2.ts"

/-- Like `approveEnv` but the agent's change lists are computed by
`getGitChanges` from delete/rename-only porcelain output. -/
def deleteRenameEnv : Env :=
  { approveEnv with
      claude := .ok ⟨⟨(getGitChanges deleteRenameStatus).1, (getGitChanges deleteRenameStatus).2⟩,
        "Removed dead code", "changes", some "sess-1"⟩ }

/-! ### Unfolding lemmas for symbolic execution of workflow runs -/

theorem wf_bind_apply {α β : Type} (x : WfM α) (f : α → WfM β) (env : Env)
    (s : WfState) :
    (x >>= f) env s =
      match x env s with
      | (s', .ok a) => f a env s'
      | (s', .error e) => (s', .error e) := rfl

theorem wf_pure_apply {α : Type} (a : α) (env : Env) (s : WfState) :
    (pure a : WfM α) env s = (s, .ok a) := rfl

/-! ### General lemmas about the review loop and the surrounding phases -/

/-- Trace/result characterisation of the review loop, for any environment:
the loop appends some delta `d` whose feedback invocations all target
`branchName` and number `k ≤ fuel`; it never invokes the initial agent run;
an approval exits with the ordinal reached so far
(`attemptCount ≤ n < attemptCount + fuel`), and the guard-failure exit
carries exactly `attemptCount + fuel` (the ordinal after spending all fuel). -/
theorem reviewLoop_delta (input : RepositoryIntegrationInput)
    (repoPath branchName : String) (sessionId : Option String) :
    ∀ (fuel attemptCount : Nat) (env : Env) (s : WfState),
      ∃ d k,
        (reviewLoop input repoPath branchName sessionId fuel attemptCount env s).1.trace
            = s.trace ++ d ∧
        k ≤ fuel ∧
        d.filterMap feedbackBranch = List.replicate k branchName ∧
        d.countP isClaudeCall = 0 ∧
        (∀ n, (reviewLoop input repoPath branchName sessionId fuel attemptCount env s).2
            = .ok (.approved n) → attemptCount ≤ n ∧ n < attemptCount + fuel) ∧
        (∀ n, (reviewLoop input repoPath branchName sessionId fuel attemptCount env s).2
            = .ok (.maxedOut n) → n = attemptCount + fuel) := by
  intro fuel
  induction fuel with
  | zero =>
    intro ac env s
    refine ⟨[], 0, ?_, le_refl 0, rfl, rfl, ?_, ?_⟩ <;>
      simp [reviewLoop, wf_pure_apply, LoopExit.maxedOut.injEq]
  | succ fuel ih =>
    intro ac env s
    rw [reviewLoop]
    simp only [Nat.succ_ne_zero, if_false, wf_bind_apply, emit, waitForReview,
      awaitDecision, updateIntegrationStatus, applyClaudeCodeFeedback, throwErr,
      wf_pure_apply, Nat.add_sub_cancel]
    cases hd : env.decisions s.decIdx with
    | none =>
      cases hr : env.report (⟨input.integrationId, "failed", "Review timed out after 7 days.", none, none⟩ : StatusUpdate) with
      | error e =>
        refine ⟨[.resetDecision, .waitReview,
          .report ⟨input.integrationId, "failed", "Review timed out after 7 days.", none, none⟩],
          0, ?_, Nat.zero_le _, ?_, ?_, ?_, ?_⟩ <;>
          simp [wf_bind_apply, wf_pure_apply, updateIntegrationStatus, hr, feedbackBranch, isClaudeCall]
      | ok u =>
        refine ⟨[.resetDecision, .waitReview,
          .report ⟨input.integrationId, "failed", "Review timed out after 7 days.", none, none⟩],
          0, ?_, Nat.zero_le _, ?_, ?_, ?_, ?_⟩ <;>
          simp [wf_bind_apply, wf_pure_apply, updateIntegrationStatus, hr, feedbackBranch, isClaudeCall]
    | some dec =>
      cases hap : dec.approved with
      | true =>
        refine ⟨[.resetDecision, .waitReview], 0, ?_, Nat.zero_le _, ?_, ?_, ?_, ?_⟩
        · simp [wf_pure_apply, hap]
        · simp [feedbackBranch]
        · simp [isClaudeCall]
        · intro n h
          simp [wf_pure_apply, hap] at h
          omega
        · intro n h
          simp [wf_pure_apply, hap] at h
      | false =>
        cases hfm : feedbackMissing dec.feedback with
        | true =>
          cases hr : env.report (⟨input.integrationId, "rejected", "Changes rejected without feedback", none, none⟩ : StatusUpdate) with
          | error e =>
            refine ⟨[.resetDecision, .waitReview,
              .report ⟨input.integrationId, "rejected", "Changes rejected without feedback", none, none⟩],
              0, ?_, Nat.zero_le _, ?_, ?_, ?_, ?_⟩ <;>
              simp [wf_bind_apply, wf_pure_apply, updateIntegrationStatus, throwErr, hap, hfm, hr, feedbackBranch, isClaudeCall]
          | ok u =>
            refine ⟨[.resetDecision, .waitReview,
              .report ⟨input.integrationId, "rejected", "Changes rejected without feedback", none, none⟩],
              0, ?_, Nat.zero_le _, ?_, ?_, ?_, ?_⟩ <;>
              simp [wf_bind_apply, wf_pure_apply, updateIntegrationStatus, throwErr, hap, hfm, hr, feedbackBranch, isClaudeCall, throwErr]
        | false =>
          cases hr : env.report (⟨input.integrationId, "applying_feedback", "Applying feedback (attempt " ++ toString (ac + 1) ++ ")...", none, none⟩ : StatusUpdate) with
          | error e =>
            refine ⟨[.resetDecision, .waitReview,
              .report ⟨input.integrationId, "applying_feedback", "Applying feedback (attempt " ++ toString (ac + 1) ++ ")...", none, none⟩],
              0, ?_, Nat.zero_le _, ?_, ?_, ?_, ?_⟩ <;>
              simp [wf_bind_apply, wf_pure_apply, updateIntegrationStatus, throwErr, hap, hfm, hr, feedbackBranch, isClaudeCall]
          | ok u =>
            cases hf : env.feedback s.fbIdx with
            | error e =>
              refine ⟨[.resetDecision, .waitReview,
                .report ⟨input.integrationId, "applying_feedback", "Applying feedback (attempt " ++ toString (ac + 1) ++ ")...", none, none⟩,
                .callFeedback repoPath sessionId (dec.feedback.getD "") branchName],
                1, ?_, by omega, ?_, ?_, ?_, ?_⟩ <;>
                simp [wf_bind_apply, wf_pure_apply, updateIntegrationStatus, applyClaudeCodeFeedback, hap, hfm, hr, hf, feedbackBranch, isClaudeCall]
            | ok fb =>
              cases hs : fb.success with
              | false =>
                cases hr2 : env.report (⟨input.integrationId, "failed", "Failed to apply feedback: " ++ fb.summary, none, none⟩ : StatusUpdate) with
                | error e =>
                  refine ⟨[.resetDecision, .waitReview,
                    .report ⟨input.integrationId, "applying_feedback", "Applying feedback (attempt " ++ toString (ac + 1) ++ ")...", none, none⟩,
                    .callFeedback repoPath sessionId (dec.feedback.getD "") branchName,
                    .report ⟨input.integrationId, "failed", "Failed to apply feedback: " ++ fb.summary, none, none⟩],
                    1, ?_, by omega, ?_, ?_, ?_, ?_⟩ <;>
                    simp [wf_bind_apply, wf_pure_apply, updateIntegrationStatus, applyClaudeCodeFeedback, hap, hfm, hr, hf, hs, hr2, feedbackBranch, isClaudeCall]
                | ok u2 =>
                  refine ⟨[.resetDecision, .waitReview,
                    .report ⟨input.integrationId, "applying_feedback", "Applying feedback (attempt " ++ toString (ac + 1) ++ ")...", none, none⟩,
                    .callFeedback repoPath sessionId (dec.feedback.getD "") branchName,
                    .report ⟨input.integrationId, "failed", "Failed to apply feedback: " ++ fb.summary, none, none⟩],
                    1, ?_, by omega, ?_, ?_, ?_, ?_⟩ <;>
                    simp [wf_bind_apply, wf_pure_apply, updateIntegrationStatus, applyClaudeCodeFeedback, hap, hfm, hr, hf, hs, hr2, feedbackBranch, isClaudeCall]
              | true =>
                cases hr2 : env.report (⟨input.integrationId, "awaiting_review", "Feedback applied. Awaiting re-review...", none, none⟩ : StatusUpdate) with
                | error e =>
                  refine ⟨[.resetDecision, .waitReview,
                    .report ⟨input.integrationId, "applying_feedback", "Applying feedback (attempt " ++ toString (ac + 1) ++ ")...", none, none⟩,
                    .callFeedback repoPath sessionId (dec.feedback.getD "") branchName,
                    .report ⟨input.integrationId, "awaiting_review", "Feedback applied. Awaiting re-review...", none, none⟩],
                    1, ?_, by omega, ?_, ?_, ?_, ?_⟩ <;>
                    simp [wf_bind_apply, wf_pure_apply, updateIntegrationStatus, applyClaudeCodeFeedback, hap, hfm, hr, hf, hs, hr2, feedbackBranch, isClaudeCall]
                | ok u2 =>
                  obtain ⟨d2, k2, h1, hk, hfb, hcc, happ, hmax⟩ :=
                    ih (ac + 1) env
                      { trace := s.trace ++ [Event.resetDecision, Event.waitReview,
                          Event.report ⟨input.integrationId, "applying_feedback", "Applying feedback (attempt " ++ toString (ac + 1) ++ ")...", none, none⟩,
                          Event.callFeedback repoPath sessionId (dec.feedback.getD "") branchName,
                          Event.report ⟨input.integrationId, "awaiting_review", "Feedback applied. Awaiting re-review...", none, none⟩],
                        fbIdx := s.fbIdx + 1, decIdx := s.decIdx + 1 }
                  refine ⟨[Event.resetDecision, Event.waitReview,
                    Event.report ⟨input.integrationId, "applying_feedback", "Applying feedback (attempt " ++ toString (ac + 1) ++ ")...", none, none⟩,
                    Event.callFeedback repoPath sessionId (dec.feedback.getD "") branchName,
                    Event.report ⟨input.integrationId, "awaiting_review", "Feedback applied. Awaiting re-review...", none, none⟩] ++ d2,
                    k2 + 1, ?_, by omega, ?_, ?_, ?_, ?_⟩
                  · simp [wf_bind_apply, wf_pure_apply, updateIntegrationStatus,
                      applyClaudeCodeFeedback, hap, hfm, hr, hf, hs, hr2, h1]
                  · simp [feedbackBranch, hfb, List.replicate_succ]
                  · simp [isClaudeCall, hcc]
                  · intro n h
                    simp [wf_bind_apply, wf_pure_apply, updateIntegrationStatus,
                      applyClaudeCodeFeedback, hap, hfm, hr, hf, hs, hr2] at h
                    have := happ n h
                    omega
                  · intro n h
                    simp [wf_bind_apply, wf_pure_apply, updateIntegrationStatus,
                      applyClaudeCodeFeedback, hap, hfm, hr, hf, hs, hr2] at h
                    have := hmax n h
                    omega

end HeliconeIntegration


namespace HeliconeIntegration

theorem noAgentCalls_nil : NoAgentCalls [] := ⟨rfl, rfl⟩

theorem noAgentCalls_append {d1 d2 : List Event}
    (h1 : NoAgentCalls d1) (h2 : NoAgentCalls d2) : NoAgentCalls (d1 ++ d2) :=
  ⟨by simp [h1.1, h2.1], by simp [List.countP_append, h1.2, h2.2]⟩

theorem traceDelta_bindNA {α β : Type} {x : WfM α} {f : α → WfM β}
    (hx : TraceDelta x NoAgentCalls) (hf : ∀ a, TraceDelta (f a) NoAgentCalls) :
    TraceDelta (x >>= f) NoAgentCalls := by
  intro env s
  obtain ⟨d1, h1, hp1⟩ := hx env s
  rcases hx2 : x env s with ⟨s1, r1⟩
  rw [hx2] at h1
  cases r1 with
  | ok a =>
    obtain ⟨d2, h2, hp2⟩ := hf a env s1
    refine ⟨d1 ++ d2, ?_, noAgentCalls_append hp1 hp2⟩
    rw [wf_bind_apply, hx2]
    simp only at h1 h2 ⊢
    rw [h2, h1, List.append_assoc]
  | error e =>
    refine ⟨d1, ?_, hp1⟩
    rw [wf_bind_apply, hx2]
    exact h1

theorem traceDelta_pure {α : Type} (a : α) : TraceDelta (pure a) NoAgentCalls :=
  fun _ s => ⟨[], by simp [wf_pure_apply], noAgentCalls_nil⟩

theorem traceDelta_throwErr {α : Type} (m : String) :
    TraceDelta (throwErr (α := α) m) NoAgentCalls :=
  fun _ s => ⟨[], by simp [throwErr], noAgentCalls_nil⟩

theorem traceDelta_report (u : StatusUpdate) :
    TraceDelta (updateIntegrationStatus u) NoAgentCalls :=
  fun _ s => ⟨[.report u], by simp [updateIntegrationStatus],
    by simp [NoAgentCalls, feedbackBranch, isClaudeCall]⟩

theorem traceDelta_fork (owner repo : String) :
    TraceDelta (forkRepository owner repo) NoAgentCalls :=
  fun _ s => ⟨[.callFork owner repo], by simp [forkRepository],
    by simp [NoAgentCalls, feedbackBranch, isClaudeCall]⟩

theorem traceDelta_clone (repoUrl branch : String) :
    TraceDelta (cloneRepository repoUrl branch) NoAgentCalls :=
  fun _ s => ⟨[.callClone repoUrl branch], by simp [cloneRepository],
    by simp [NoAgentCalls, feedbackBranch, isClaudeCall]⟩

theorem traceDelta_staging (repoPath branchName : String) :
    TraceDelta (createStagingBranchCall repoPath branchName) NoAgentCalls :=
  fun _ s => ⟨[.callStaging repoPath branchName], by simp [createStagingBranchCall],
    by simp [NoAgentCalls, feedbackBranch, isClaudeCall]⟩

theorem traceDelta_createPR (req : PRRequest) :
    TraceDelta (createPullRequest req) NoAgentCalls :=
  fun _ s => ⟨[.callCreatePR req], by simp [createPullRequest],
    by simp [NoAgentCalls, feedbackBranch, isClaudeCall]⟩

theorem traceDelta_setupRepository (input : RepositoryIntegrationInput) :
    TraceDelta (setupRepository input) NoAgentCalls := by
  unfold setupRepository
  exact traceDelta_bindNA (traceDelta_report _) fun _ =>
    traceDelta_bindNA (traceDelta_fork _ _) fun forkInfo =>
      traceDelta_bindNA (traceDelta_report _) fun _ =>
        traceDelta_bindNA (traceDelta_clone _ _) fun repoPath =>
          traceDelta_pure _

theorem traceDelta_createReviewPullRequest (input : RepositoryIntegrationInput)
    (repoPath : String) (claudeResult : ClaudeResult) (branchName : String)
    (attemptCount : Nat) (reviewDecision : Option ReviewDecision)
    (forkInfo : ForkResult) :
    TraceDelta
      (createReviewPullRequest input repoPath claudeResult branchName
        attemptCount reviewDecision forkInfo) NoAgentCalls := by
  unfold createReviewPullRequest
  exact traceDelta_bindNA (traceDelta_report _) fun _ =>
    traceDelta_bindNA (traceDelta_staging _ _) fun _ =>
      traceDelta_bindNA (traceDelta_report _) fun _ =>
        traceDelta_bindNA (traceDelta_createPR _) fun reviewPr =>
          traceDelta_report _

theorem traceDelta_createFinalPullRequest (input : RepositoryIntegrationInput)
    (forkInfo : ForkResult) (branchName : String) (attemptCount : Nat)
    (sessionId : Option String) :
    TraceDelta
      (createFinalPullRequest input forkInfo branchName attemptCount sessionId)
      NoAgentCalls := by
  unfold createFinalPullRequest
  exact traceDelta_bindNA (traceDelta_report _) fun _ =>
    traceDelta_bindNA (traceDelta_createPR _) fun finalPr =>
      traceDelta_report _

theorem traceDelta_runClaudeIntegration (input : RepositoryIntegrationInput)
    (repoPath : String) (env : Env) (s : WfState) :
    ∃ d, (runClaudeIntegration input repoPath env s).1.trace = s.trace ++ d ∧
      d.filterMap feedbackBranch = [] ∧ d.countP isClaudeCall ≤ 1 := by
  simp only [runClaudeIntegration, wf_bind_apply, wf_pure_apply,
    updateIntegrationStatus, runClaudeCode]
  cases hr : env.report (⟨input.integrationId, "integrating", "Running Claude Code to add Helicone integration...", none, none⟩ : StatusUpdate) with
  | error e =>
    exact ⟨[.report ⟨input.integrationId, "integrating", "Running Claude Code to add Helicone integration...", none, none⟩],
      by simp, by simp [feedbackBranch], by simp [isClaudeCall]⟩
  | ok u =>
    cases hc : env.claude with
    | error e =>
      exact ⟨[.report ⟨input.integrationId, "integrating", "Running Claude Code to add Helicone integration...", none, none⟩,
        .callClaude repoPath "Add Helicone integration"],
        by simp, by simp [feedbackBranch], by simp [isClaudeCall]⟩
    | ok a =>
      cases hb : (decide (a.changes.modifiedFiles.length > 0) || decide (a.changes.addedFiles.length > 0)) with
      | true =>
        exact ⟨[.report ⟨input.integrationId, "integrating", "Running Claude Code to add Helicone integration...", none, none⟩,
          .callClaude repoPath "Add Helicone integration"],
          by simp [hb, wf_pure_apply], by simp [feedbackBranch], by simp [isClaudeCall]⟩
      | false =>
        cases hr2 : env.report (⟨input.integrationId, "completed", "No changes needed - this repository may not use supported LLM providers directly.", none, none⟩ : StatusUpdate) with
        | error e =>
          exact ⟨[.report ⟨input.integrationId, "integrating", "Running Claude Code to add Helicone integration...", none, none⟩,
            .callClaude repoPath "Add Helicone integration",
            .report ⟨input.integrationId, "completed", "No changes needed - this repository may not use supported LLM providers directly.", none, none⟩],
            by simp [hb, hr2, wf_bind_apply, wf_pure_apply, updateIntegrationStatus], by simp [feedbackBranch], by simp [isClaudeCall]⟩
        | ok u2 =>
          exact ⟨[.report ⟨input.integrationId, "integrating", "Running Claude Code to add Helicone integration...", none, none⟩,
            .callClaude repoPath "Add Helicone integration",
            .report ⟨input.integrationId, "completed", "No changes needed - this repository may not use supported LLM providers directly.", none, none⟩],
            by simp [hb, hr2, wf_bind_apply, wf_pure_apply, updateIntegrationStatus], by simp [feedbackBranch], by simp [isClaudeCall]⟩

end HeliconeIntegration

namespace HeliconeIntegration

theorem traceDelta_performIntegration (input : RepositoryIntegrationInput)
    (repoPath : String) (forkInfo : ForkResult) (env : Env) (s : WfState) :
    ∃ d, (performIntegration input repoPath forkInfo env s).1.trace = s.trace ++ d ∧
      d.countP isClaudeCall ≤ 1 ∧
      ∃ k, k ≤ 2 ∧
        d.filterMap feedbackBranch = List.replicate k (stagingBranchName input) := by
  obtain ⟨d1, h1, hf1, hc1⟩ := traceDelta_runClaudeIntegration input repoPath env s
  rcases hx1 : runClaudeIntegration input repoPath env s with ⟨s1, r1⟩
  rw [hx1] at h1
  replace h1 : s1.trace = s.trace ++ d1 := h1
  simp only [performIntegration, wf_bind_apply, wf_pure_apply, hx1]
  cases r1 with
  | error e =>
    exact ⟨d1, h1, by simp [hc1], 0, by omega, by simp [hf1]⟩
  | ok a =>
    cases a with
    | none =>
      exact ⟨d1, by simp only [wf_pure_apply]; exact h1, by simp [hc1], 0,
        by omega, by simp [hf1]⟩
    | some cr =>
      obtain ⟨d2, h2, hna2⟩ := traceDelta_createReviewPullRequest input repoPath
        cr (stagingBranchName input) 1 none forkInfo env s1
      rcases hx2 : createReviewPullRequest input repoPath cr
          (stagingBranchName input) 1 none forkInfo env s1 with ⟨s2, r2⟩
      rw [hx2] at h2
      replace h2 : s2.trace = s1.trace ++ d2 := h2
      simp only [wf_bind_apply, hx2]
      cases r2 with
      | error e =>
        refine ⟨d1 ++ d2, ?_, ?_, 0, by omega, ?_⟩
        · show s2.trace = s.trace ++ (d1 ++ d2)
          rw [h2, h1, List.append_assoc]
        · simp [List.countP_append, hc1, hna2.2]
        · simp [hf1, hna2.1]
      | ok u =>
        obtain ⟨d3, k3, h3, hk3, hfb3, hcc3, hap3, hmx3⟩ := reviewLoop_delta input
          repoPath (stagingBranchName input) cr.sessionId 2 1 env s2
        rcases hx3 : reviewLoop input repoPath (stagingBranchName input)
            cr.sessionId 2 1 env s2 with ⟨s3, r3⟩
        rw [hx3] at h3
        replace h3 : s3.trace = s2.trace ++ d3 := h3
        simp only [wf_bind_apply, wf_pure_apply, hx3]
        cases r3 with
        | error e =>
          refine ⟨d1 ++ d2 ++ d3, ?_, ?_, k3, hk3, ?_⟩
          · show s3.trace = s.trace ++ (d1 ++ d2 ++ d3)
            rw [h3, h2, h1]
            simp [List.append_assoc]
          · simp [List.countP_append, hc1, hna2.2, hcc3]
          · simp [hf1, hna2.1, hfb3]
        | ok loopExit =>
          cases loopExit with
          | timedOut =>
            refine ⟨d1 ++ d2 ++ d3, ?_, ?_, k3, hk3, ?_⟩
            · show s3.trace = s.trace ++ (d1 ++ d2 ++ d3)
              rw [h3, h2, h1]
              simp [List.append_assoc]
            · simp [List.countP_append, hc1, hna2.2, hcc3]
            · simp [hf1, hna2.1, hfb3]
          | feedbackFailed =>
            refine ⟨d1 ++ d2 ++ d3, ?_, ?_, k3, hk3, ?_⟩
            · show s3.trace = s.trace ++ (d1 ++ d2 ++ d3)
              rw [h3, h2, h1]
              simp [List.append_assoc]
            · simp [List.countP_append, hc1, hna2.2, hcc3]
            · simp [hf1, hna2.1, hfb3]
          | approved n =>
            refine ⟨d1 ++ d2 ++ d3, ?_, ?_, k3, hk3, ?_⟩
            · show s3.trace = s.trace ++ (d1 ++ d2 ++ d3)
              rw [h3, h2, h1]
              simp [List.append_assoc]
            · simp [List.countP_append, hc1, hna2.2, hcc3]
            · simp [hf1, hna2.1, hfb3]
          | maxedOut n =>
            cases hr4 : env.report (⟨input.integrationId, "rejected", "Maximum feedback attempts reached", none, none⟩ : StatusUpdate) with
            | error e =>
              refine ⟨d1 ++ d2 ++ d3 ++
                [Event.report ⟨input.integrationId, "rejected", "Maximum feedback attempts reached", none, none⟩],
                ?_, ?_, k3, hk3, ?_⟩
              · simp only [wf_bind_apply, updateIntegrationStatus, hr4]
                show s3.trace ++
                    [Event.report ⟨input.integrationId, "rejected", "Maximum feedback attempts reached", none, none⟩]
                  = s.trace ++ (d1 ++ d2 ++ d3 ++
                    [Event.report ⟨input.integrationId, "rejected", "Maximum feedback attempts reached", none, none⟩])
                rw [h3, h2, h1]
                simp [List.append_assoc]
              · simp [List.countP_append, hc1, hna2.2, hcc3, isClaudeCall]
              · simp [hf1, hna2.1, hfb3, feedbackBranch]
            | ok u4 =>
              refine ⟨d1 ++ d2 ++ d3 ++
                [Event.report ⟨input.integrationId, "rejected", "Maximum feedback attempts reached", none, none⟩],
                ?_, ?_, k3, hk3, ?_⟩
              · simp only [wf_bind_apply, updateIntegrationStatus, hr4]
                show s3.trace ++
                    [Event.report ⟨input.integrationId, "rejected", "Maximum feedback attempts reached", none, none⟩]
                  = s.trace ++ (d1 ++ d2 ++ d3 ++
                    [Event.report ⟨input.integrationId, "rejected", "Maximum feedback attempts reached", none, none⟩])
                rw [h3, h2, h1]
                simp [List.append_assoc]
              · simp [List.countP_append, hc1, hna2.2, hcc3, isClaudeCall]
              · simp [hf1, hna2.1, hfb3, feedbackBranch]

theorem traceDelta_integrationMain (input : RepositoryIntegrationInput)
    (env : Env) (s : WfState) :
    ∃ d, (integrationMain input env s).1.trace = s.trace ++ d ∧
      d.countP isClaudeCall ≤ 1 ∧
      ∃ k, k ≤ 2 ∧
        d.filterMap feedbackBranch = List.replicate k (stagingBranchName input) := by
  obtain ⟨d1, h1, hna1⟩ := traceDelta_setupRepository input env s
  rcases hx1 : setupRepository input env s with ⟨s1, r1⟩
  rw [hx1] at h1
  replace h1 : s1.trace = s.trace ++ d1 := h1
  simp only [integrationMain, wf_bind_apply, wf_pure_apply, hx1]
  cases r1 with
  | error e =>
    exact ⟨d1, h1, by simp [hna1.2], 0, by omega, by simp [hna1.1]⟩
  | ok a =>
    obtain ⟨d2, h2, hc2, k2, hk2, hfb2⟩ := traceDelta_performIntegration input
      a.1 a.2 env s1
    rcases hx2 : performIntegration input a.1 a.2 env s1 with ⟨s2, r2⟩
    rw [hx2] at h2
    replace h2 : s2.trace = s1.trace ++ d2 := h2
    simp only [wf_bind_apply, wf_pure_apply, hx2]
    cases r2 with
    | error e =>
      refine ⟨d1 ++ d2, ?_, ?_, k2, hk2, ?_⟩
      · show s2.trace = s.trace ++ (d1 ++ d2)
        rw [h2, h1, List.append_assoc]
      · simp [List.countP_append, hna1.2, hc2]
      · simp [hna1.1, hfb2]
    | ok r =>
      cases r with
      | none =>
        refine ⟨d1 ++ d2, ?_, ?_, k2, hk2, ?_⟩
        · show s2.trace = s.trace ++ (d1 ++ d2)
          rw [h2, h1, List.append_assoc]
        · simp [List.countP_append, hna1.2, hc2]
        · simp [hna1.1, hfb2]
      | some r =>
        obtain ⟨d3, h3, hna3⟩ := traceDelta_createFinalPullRequest input a.2
          r.branchName r.attemptCount r.claudeSessionId env s2
        rcases hx3 : createFinalPullRequest input a.2 r.branchName r.attemptCount
            r.claudeSessionId env s2 with ⟨s3, r3⟩
        rw [hx3] at h3
        replace h3 : s3.trace = s2.trace ++ d3 := h3
        simp only [wf_bind_apply, hx3]
        refine ⟨d1 ++ d2 ++ d3, ?_, ?_, k2, hk2, ?_⟩
        · cases r3 with
          | ok u => show s3.trace = s.trace ++ (d1 ++ d2 ++ d3)
                    rw [h3, h2, h1]
                    simp [List.append_assoc]
          | error e => show s3.trace = s.trace ++ (d1 ++ d2 ++ d3)
                       rw [h3, h2, h1]
                       simp [List.append_assoc]
        · simp [List.countP_append, hna1.2, hc2, hna3.2]
        · simp [hna1.1, hfb2, hna3.1]

theorem traceDelta_workflow (input : RepositoryIntegrationInput) (env : Env) :
    ∃ d, (runIntegrationWorkflow env input).1.trace = d ∧
      d.countP isClaudeCall ≤ 1 ∧
      ∃ k, k ≤ 2 ∧
        d.filterMap feedbackBranch = List.replicate k (stagingBranchName input) := by
  obtain ⟨d1, h1, hc1, k1, hk1, hfb1⟩ := traceDelta_integrationMain input env {}
  rcases hx1 : integrationMain input env {} with ⟨s1, r1⟩
  rw [hx1] at h1
  replace h1 : s1.trace = WfState.trace {} ++ d1 := h1
  simp only [runIntegrationWorkflow, repositoryIntegrationWorkflow, tryCatchW, hx1]
  cases r1 with
  | ok a =>
    exact ⟨d1, by simpa using h1, hc1, k1, hk1, hfb1⟩
  | error e =>
    cases hr : env.report (⟨input.integrationId, "failed", "Integration failed: " ++ e, none, none⟩ : StatusUpdate) with
    | error e2 =>
      refine ⟨d1 ++ [.report ⟨input.integrationId, "failed", "Integration failed: " ++ e, none, none⟩],
        ?_, ?_, k1, hk1, ?_⟩
      · simp only [wf_bind_apply, updateIntegrationStatus, hr]
        show s1.trace ++
            [Event.report ⟨input.integrationId, "failed", "Integration failed: " ++ e, none, none⟩]
          = d1 ++ [Event.report ⟨input.integrationId, "failed", "Integration failed: " ++ e, none, none⟩]
        rw [h1]
        simp
      · simp [List.countP_append, hc1, isClaudeCall]
      · simp [hfb1, feedbackBranch]
    | ok u =>
      refine ⟨d1 ++ [.report ⟨input.integrationId, "failed", "Integration failed: " ++ e, none, none⟩],
        ?_, ?_, k1, hk1, ?_⟩
      · simp only [wf_bind_apply, updateIntegrationStatus, hr]
        show s1.trace ++
            [Event.report ⟨input.integrationId, "failed", "Integration failed: " ++ e, none, none⟩]
          = d1 ++ [Event.report ⟨input.integrationId, "failed", "Integration failed: " ++ e, none, none⟩]
        rw [h1]
        simp
      · simp [List.countP_append, hc1, isClaudeCall]
      · simp [hfb1, feedbackBranch]

end HeliconeIntegration

namespace HeliconeIntegration

theorem countP_isFeedbackCall_eq (d : List Event) :
    d.countP isFeedbackCall = (d.filterMap feedbackBranch).length := by
  induction d with
  | nil => rfl
  | cons e t ih => cases e <;> simp [isFeedbackCall, feedbackBranch, List.countP_cons, ih]

theorem getGitChanges_foldl (lines : List String) (acc : List String × List String) :
    lines.foldl
      (fun acc change =>
        match jsSplitWS (jsTrim change) with
        | [] => acc
        | status :: fileParts =>
          let file := String.intercalate " " fileParts
          let acc1 := if status = "M" then (acc.1 ++ [file], acc.2) else acc
          if status = "A" || status = "??" then (acc1.1, acc1.2 ++ [file]) else acc1) acc
    = (acc.1 ++ lines.filterMap (fun change =>
          match jsSplitWS (jsTrim change) with
          | [] => none
          | status :: fileParts =>
            if status = "M" then some (String.intercalate " " fileParts) else none),
       acc.2 ++ lines.filterMap (fun change =>
          match jsSplitWS (jsTrim change) with
          | [] => none
          | status :: fileParts =>
            if status = "A" || status = "??" then some (String.intercalate " " fileParts)
            else none)) := by
  induction lines generalizing acc with
  | nil => simp
  | cons l t ih =>
    rw [List.foldl_cons, ih, List.filterMap_cons, List.filterMap_cons]
    cases hsp : jsSplitWS (jsTrim l) with
    | nil => simp [hsp]
    | cons st parts =>
      by_cases h1 : st = "M"
      · subst h1
        simp [hsp]
      · by_cases h2 : (st = "A" || st = "??") = true
        · simp [hsp, h1, h2]
        · simp [hsp, h1, h2]

/-- Claim **C9.** Change detection classifies exactly the porcelain entries whose
status token is `'M'` as modified and exactly those with `'A'` or `'??'` as
added; every other status (deletions `D`, renames `R`, two-letter states
like `MM`) lands in neither list.  Consequently a first agent run whose only
effect is deleting or renaming files yields `([], [])`, and the instance
terminates early in `completed` with the no-changes message, without any
staging-branch or pull-request call. -/
theorem git_changes_classification :
    (∀ gitStatus : String,
      getGitChanges gitStatus =
        ((porcelainEntries gitStatus).filterMap
            (fun e => if e.1 = "M" then some e.2 else none),
         (porcelainEntries gitStatus).filterMap
            (fun e => if e.1 = "A" || e.1 = "??" then some e.2 else none))) ∧
    getGitChanges "M  src/a.ts\n?? new.ts\nA  staged.ts\nD  gone.ts\nR  old.ts -> new2.ts\nMM both.ts"
      = (["src/a.ts"], ["new.ts", "staged.ts"]) ∧
    getGitChanges deleteRenameStatus = ([], []) ∧
    (runIntegrationWorkflow deleteRenameEnv sampleInput).2 = .ok () ∧
    (runIntegrationWorkflow deleteRenameEnv sampleInput).1.trace.filterMap reportStatus
      = ["forking", "cloning", "integrating", "completed"] ∧
    (runIntegrationWorkflow deleteRenameEnv sampleInput).1.trace.countP isStagingCall = 0 ∧
    (runIntegrationWorkflow deleteRenameEnv sampleInput).1.trace.countP isCreatePRCall = 0 := by
  have hdel : getGitChanges deleteRenameStatus = ([], []) := by decide
  have hrun : runIntegrationWorkflow deleteRenameEnv sampleInput =
      ({ trace := [
          .report ⟨"abc123", "forking", "Forking repository...", none, none⟩,
          .callFork "acme" "widgets",
          .report ⟨"abc123", "cloning", "Cloning repository...", none, none⟩,
          .callClone "https://github.com/integration-bot/widgets.git" "main",
          .report ⟨"abc123", "integrating", "Running Claude Code to add Helicone integration...", none, none⟩,
          .callClaude "/tmp/helicone-integration-1" "Add Helicone integration",
          .report ⟨"abc123", "completed", "No changes needed - this repository may not use supported LLM providers directly.", none, none⟩],
         fbIdx := 0, decIdx := 0 }, .ok ()) := by
    simp [runIntegrationWorkflow, repositoryIntegrationWorkflow, tryCatchW,
      integrationMain, setupRepository, performIntegration, runClaudeIntegration,
      wf_bind_apply, wf_pure_apply, updateIntegrationStatus, forkRepository,
      cloneRepository, runClaudeCode, deleteRenameEnv, approveEnv, sampleInput,
      sampleFork, hdel]
  refine ⟨?_, by decide, hdel, ?_, ?_, ?_, ?_⟩
  · intro gitStatus
    unfold getGitChanges porcelainEntries
    rw [getGitChanges_foldl]
    rw [List.filterMap_filterMap, List.filterMap_filterMap]
    simp only [List.nil_append, Prod.mk.injEq]
    constructor <;>
    · congr 1
      funext change
      cases hsp : jsSplitWS (jsTrim change) with
      | nil => simp [hsp]
      | cons st parts => by_cases h1 : st = "M" <;> by_cases h2 : (st = "A" || st = "??") = true <;>
          simp [hsp, h1, h2, Option.bind]
  · rw [hrun]
  · rw [hrun]
    simp [reportStatus]
  · rw [hrun]
    simp [isStagingCall, List.countP_cons]
  · rw [hrun]
    simp [isCreatePRCall, List.countP_cons]

/-- Claim **C10.** With a clean working tree, `createStagingBranch` treats the work
as already committed exactly when the last commit message is non-empty and
contains `"helicone"` after lowercasing; otherwise (including when no commit
exists) it raises a `GitOperationError` whose message — the wrapped
`"Failed to create staging branch: No changes to commit"` — contains
`"No changes to commit"`, and no branch is created or pushed
(the error is raised before the branch/push steps, cf. `StagingOutcome`). -/
theorem staging_commit_detection (git : GitWorkspace)
    (hclean : jsTrim git.statusOutput = "") :
    (createStagingBranchGit git = .pushed true ↔
      ∃ m, git.lastCommitMessage = some m ∧ m ≠ "" ∧
        jsIncludes (jsToLower m) "helicone" = true) ∧
    (createStagingBranchGit git
        = .gitError "Failed to create staging branch: No changes to commit" ↔
      ¬ ∃ m, git.lastCommitMessage = some m ∧ m ≠ "" ∧
        jsIncludes (jsToLower m) "helicone" = true) ∧
    jsIncludes "Failed to create staging branch: No changes to commit"
      "No changes to commit" = true := by
  refine ⟨?_, ?_, by decide⟩ <;>
  · simp only [createStagingBranchGit, hclean]
    cases hm : git.lastCommitMessage with
    | none => simp
    | some m =>
      by_cases hne : m = ""
      · subst hne
        simp
      · by_cases hinc : jsIncludes (jsToLower m) "helicone" = true
        · simp [hne, hinc]
        · simp [hne, hinc]

theorem staging_commit_detection_witness :
    createStagingBranchGit ⟨"", some "Add Helicone integration"⟩ = .pushed true :=
  ((staging_commit_detection ⟨"", some "Add Helicone integration"⟩ (by decide)).1).mpr
    ⟨"Add Helicone integration", rfl, by decide, by decide⟩

end HeliconeIntegration

namespace HeliconeIntegration

/-- Claim **C5.** If the first agent run reports zero modified and zero added
files, the workflow reports `completed` with the no-changes message and
returns normally; the exact trace shows `createStagingBranch` and
`createPullRequest` are never called. -/
theorem no_changes_early_complete (input : RepositoryIntegrationInput)
    (env : Env) (forkInfo : ForkResult) (repoPath : String) (cr : ClaudeResult)
    (hfork : env.fork = .ok forkInfo) (hclone : env.clone = .ok repoPath)
    (hclaude : env.claude = .ok cr)
    (hmod : cr.changes.modifiedFiles = []) (hadd : cr.changes.addedFiles = [])
    (hrep : ∀ u, env.report u = .ok ()) :
    runIntegrationWorkflow env input =
      ({ trace := [
          .report ⟨input.integrationId, "forking", "Forking repository...", none, none⟩,
          .callFork input.repoOwner input.repoName,
          .report ⟨input.integrationId, "cloning", "Cloning repository...", none, none⟩,
          .callClone forkInfo.cloneUrl forkInfo.defaultBranch,
          .report ⟨input.integrationId, "integrating", "Running Claude Code to add Helicone integration...", none, none⟩,
          .callClaude repoPath "Add Helicone integration",
          .report ⟨input.integrationId, "completed", "No changes needed - this repository may not use supported LLM providers directly.", none, none⟩],
         fbIdx := 0, decIdx := 0 }, .ok ()) := by
  simp [runIntegrationWorkflow, repositoryIntegrationWorkflow, tryCatchW,
    integrationMain, setupRepository, performIntegration, runClaudeIntegration,
    wf_bind_apply, wf_pure_apply, updateIntegrationStatus, forkRepository,
    cloneRepository, runClaudeCode, hfork, hclone, hclaude, hmod, hadd, hrep]

theorem no_changes_early_complete_witness :
    runIntegrationWorkflow noChangesEnv sampleInput =
      ({ trace := [
          .report ⟨"abc123", "forking", "Forking repository...", none, none⟩,
          .callFork "acme" "widgets",
          .report ⟨"abc123", "cloning", "Cloning repository...", none, none⟩,
          .callClone "https://github.com/integration-bot/widgets.git" "main",
          .report ⟨"abc123", "integrating", "Running Claude Code to add Helicone integration...", none, none⟩,
          .callClaude "/tmp/helicone-integration-1" "Add Helicone integration",
          .report ⟨"abc123", "completed", "No changes needed - this repository may not use supported LLM providers directly.", none, none⟩],
         fbIdx := 0, decIdx := 0 }, .ok ()) :=
  no_changes_early_complete sampleInput noChangesEnv sampleFork
    "/tmp/helicone-integration-1"
    ⟨⟨[], []⟩, "Nothing to do", "No file changes detected.", some "sess-1"⟩
    rfl rfl rfl rfl rfl (fun _ => rfl)

/-- Claim **C7.** The URL returned by the review-PR creation call is exactly the
`stagingUrl` of the `awaiting_review` status event that immediately follows
it: whenever `createPullRequest` answers `pr`, `createReviewPullRequest`
appends `... callCreatePR, report awaiting_review (stagingUrl := pr.url)`. -/
theorem review_pr_url_roundtrip (input : RepositoryIntegrationInput)
    (repoPath : String) (claudeResult : ClaudeResult) (branchName : String)
    (attemptCount : Nat) (reviewDecision : Option ReviewDecision)
    (forkInfo : ForkResult) (env : Env) (s : WfState) (pr : PRResult)
    (hrep : ∀ u, env.report u = .ok ()) (hstag : env.staging = .ok ())
    (hpr : env.createPR ⟨forkInfo.forkOwner, forkInfo.forkName, branchName,
      forkInfo.defaultBranch, "[REVIEW] Add Helicone observability integration",
      formatReviewPRBody input claudeResult⟩ = .ok pr) :
    createReviewPullRequest input repoPath claudeResult branchName attemptCount
        reviewDecision forkInfo env s =
      ({ s with trace := s.trace ++ [
          .report ⟨input.integrationId, "pushing", "Creating staging branch with changes...", none, none⟩,
          .callStaging repoPath branchName,
          .report ⟨input.integrationId, "creating_review_pr", "Creating pull request in fork for review...", none, none⟩,
          .callCreatePR ⟨forkInfo.forkOwner, forkInfo.forkName, branchName,
            forkInfo.defaultBranch, "[REVIEW] Add Helicone observability integration",
            formatReviewPRBody input claudeResult⟩,
          .report ⟨input.integrationId, "awaiting_review", "Review PR created. Awaiting review...", some pr.url, none⟩] },
        .ok ()) := by
  simp [createReviewPullRequest, wf_bind_apply, wf_pure_apply,
    updateIntegrationStatus, createStagingBranchCall, createPullRequest,
    hrep, hstag, hpr]

theorem review_pr_url_roundtrip_witness :
    createReviewPullRequest sampleInput "/tmp/helicone-integration-1"
        sampleClaude "helicone-integration-abc123" 1 none sampleFork approveEnv {} =
      ({ trace := [
          .report ⟨"abc123", "pushing", "Creating staging branch with changes...", none, none⟩,
          .callStaging "/tmp/helicone-integration-1" "helicone-integration-abc123",
          .report ⟨"abc123", "creating_review_pr", "Creating pull request in fork for review...", none, none⟩,
          .callCreatePR ⟨"integration-bot", "widgets", "helicone-integration-abc123",
            "main", "[REVIEW] Add Helicone observability integration",
            formatReviewPRBody sampleInput sampleClaude⟩,
          .report ⟨"abc123", "awaiting_review", "Review PR created. Awaiting review...",
            some "https://github.com/pr/7", none⟩],
         fbIdx := 0, decIdx := 0 }, .ok ()) := by
  have h := review_pr_url_roundtrip sampleInput "/tmp/helicone-integration-1"
    sampleClaude "helicone-integration-abc123" 1 none sampleFork approveEnv {}
    ⟨7, "https://github.com/pr/7", "open"⟩ (fun _ => rfl) rfl rfl
  simpa [sampleInput, sampleFork] using h

end HeliconeIntegration

namespace HeliconeIntegration

/-- Claim **C4, counterexample.**  Run the happy path against a repository whose
default branch (and hence its fork's) is `master`: the one pull request
opened against the original owner/repo has base `"main"`, not the default
branch `"master"` — the claim's "base equal to the original repository's
default branch" fails. -/
theorem finalPR_base_not_default_branch_cex :
    sampleForkMaster.defaultBranch = "master" ∧
    (runIntegrationWorkflow masterForkEnv sampleInput).1.trace.filterMap
      (fun e => match e with
        | .callCreatePR req => if req.owner = "acme" then some req.base else none
        | _ => none) = ["main"] ∧
    ("main" : String) ≠ "master" := by
  refine ⟨rfl, ?_, by decide⟩
  simp [runIntegrationWorkflow, repositoryIntegrationWorkflow, tryCatchW,
    integrationMain, setupRepository, performIntegration, runClaudeIntegration,
    createReviewPullRequest, waitForReview, reviewLoop, createFinalPullRequest,
    stagingBranchName, feedbackMissing, wf_bind_apply, wf_pure_apply,
    updateIntegrationStatus, forkRepository, cloneRepository, runClaudeCode,
    createStagingBranchCall, createPullRequest, applyClaudeCodeFeedback,
    awaitDecision, emit, throwErr, masterForkEnv, approveEnv, sampleInput,
    sampleForkMaster, sampleClaude]

/-- Claim **C4, amended.**  On final approval exactly one final pull request is
created against the original `repoOwner/repoName`, with head
`<forkOwner>:<branch>` — but with base equal to the string literal `"main"`
(not the repository's recorded default branch) — and the `completed` status
event records the returned PR URL. -/
theorem finalPR_shape (input : RepositoryIntegrationInput)
    (forkInfo : ForkResult) (branchName : String) (attemptCount : Nat)
    (sessionId : Option String) (env : Env) (s : WfState) (pr : PRResult)
    (hrep : ∀ u, env.report u = .ok ())
    (hpr : env.createPR ⟨input.repoOwner, input.repoName,
      forkInfo.forkOwner ++ ":" ++ branchName, "main",
      "🚀 Add Helicone observability for LLM monitoring",
      formatFinalPRBody attemptCount sessionId⟩ = .ok pr) :
    createFinalPullRequest input forkInfo branchName attemptCount sessionId env s =
      ({ s with trace := s.trace ++ [
          .report ⟨input.integrationId, "creating_pr", "Review approved! Creating pull request to original repository...", none, none⟩,
          .callCreatePR ⟨input.repoOwner, input.repoName,
            forkInfo.forkOwner ++ ":" ++ branchName, "main",
            "🚀 Add Helicone observability for LLM monitoring",
            formatFinalPRBody attemptCount sessionId⟩,
          .report ⟨input.integrationId, "completed", "Successfully created pull request!", none, some pr.url⟩] },
        .ok ()) := by
  simp [createFinalPullRequest, wf_bind_apply, wf_pure_apply,
    updateIntegrationStatus, createPullRequest, hrep, hpr]

theorem finalPR_shape_witness :
    createFinalPullRequest sampleInput sampleForkMaster
        "helicone-integration-abc123" 1 (some "sess-1") approveEnv {} =
      ({ trace := [
          .report ⟨"abc123", "creating_pr", "Review approved! Creating pull request to original repository...", none, none⟩,
          .callCreatePR ⟨"acme", "widgets", "integration-bot:helicone-integration-abc123",
            "main", "🚀 Add Helicone observability for LLM monitoring",
            formatFinalPRBody 1 (some "sess-1")⟩,
          .report ⟨"abc123", "completed", "Successfully created pull request!", none,
            some "https://github.com/pr/7"⟩],
         fbIdx := 0, decIdx := 0 }, .ok ()) := by
  have h := finalPR_shape sampleInput sampleForkMaster "helicone-integration-abc123"
    1 (some "sess-1") approveEnv {} ⟨7, "https://github.com/pr/7", "open"⟩
    (fun _ => rfl) rfl
  simpa [sampleInput, sampleForkMaster] using h

/-- Claim **C8, counterexample.**  When the very first status report (`forking`)
raises, the orchestrator does not swallow the error: the fork activity is
never invoked and the instance aborts — the run consists of the failing
`forking` report, then the catch-block's `failed` report, and ends with the
reporter's error re-raised.  Report failures are therefore fatal to the
orchestrator, contrary to the claim. -/
theorem report_failure_fatal_cex :
    runIntegrationWorkflow reportFailEnv sampleInput =
      ({ trace := [
          .report ⟨"abc123", "forking", "Forking repository...", none, none⟩,
          .report ⟨"abc123", "failed", "Integration failed: status reporter unavailable", none, none⟩],
         fbIdx := 0, decIdx := 0 }, .error "status reporter unavailable") := by
  simp [runIntegrationWorkflow, repositoryIntegrationWorkflow, tryCatchW,
    integrationMain, setupRepository, wf_bind_apply, wf_pure_apply,
    updateIntegrationStatus, forkRepository, throwErr, reportFailEnv,
    approveEnv, sampleInput]

/-- Claim **C8, amended.**  The bundled `updateIntegrationStatus` implementation
only logs and never raises, so in-process report calls cannot fail; but the
orchestrator does not guard its report calls: if a report call does raise,
the error propagates like any other activity failure — the workflow stops
making progress (here: the fork call never happens) and the instance fails
with the reporter's error. -/
theorem report_failure_propagates :
    (∀ u, updateIntegrationStatusImpl u = .ok ()) ∧
    ∀ (env : Env) (input : RepositoryIntegrationInput) (e : String),
      env.report ⟨input.integrationId, "forking", "Forking repository...", none, none⟩ = .error e →
      env.report ⟨input.integrationId, "failed", "Integration failed: " ++ e, none, none⟩ = .ok () →
      runIntegrationWorkflow env input =
        ({ trace := [
            .report ⟨input.integrationId, "forking", "Forking repository...", none, none⟩,
            .report ⟨input.integrationId, "failed", "Integration failed: " ++ e, none, none⟩],
           fbIdx := 0, decIdx := 0 }, .error e) := by
  refine ⟨fun _ => rfl, ?_⟩
  intro env input e h1 h2
  simp [runIntegrationWorkflow, repositoryIntegrationWorkflow, tryCatchW,
    integrationMain, setupRepository, wf_bind_apply, wf_pure_apply,
    updateIntegrationStatus, forkRepository, throwErr, h1, h2]

theorem report_failure_propagates_witness :
    runIntegrationWorkflow reportFailEnv sampleInput =
      ({ trace := [
          .report ⟨"abc123", "forking", "Forking repository...", none, none⟩,
          .report ⟨"abc123", "failed", "Integration failed: status reporter unavailable", none, none⟩],
         fbIdx := 0, decIdx := 0 }, .error "status reporter unavailable") := by
  have h := report_failure_propagates.2 reportFailEnv sampleInput
    "status reporter unavailable" rfl rfl
  simpa [sampleInput] using h

/-- Claim **C3, counterexample.**  A 7-day review timeout: the orchestrator reports
`failed` ("Review timed out after 7 days.") but then the workflow function
returns normally (`.ok ()`), never raising an error — contrary to the claim
that every `failed` outcome is re-raised to the hosting runtime. -/
theorem timeout_returns_normally_cex :
    runIntegrationWorkflow timeoutEnv sampleInput =
      ({ trace := [
          .report ⟨"abc123", "forking", "Forking repository...", none, none⟩,
          .callFork "acme" "widgets",
          .report ⟨"abc123", "cloning", "Cloning repository...", none, none⟩,
          .callClone "https://github.com/integration-bot/widgets.git" "main",
          .report ⟨"abc123", "integrating", "Running Claude Code to add Helicone integration...", none, none⟩,
          .callClaude "/tmp/helicone-integration-1" "Add Helicone integration",
          .report ⟨"abc123", "pushing", "Creating staging branch with changes...", none, none⟩,
          .callStaging "/tmp/helicone-integration-1" "helicone-integration-abc123",
          .report ⟨"abc123", "creating_review_pr", "Creating pull request in fork for review...", none, none⟩,
          .callCreatePR ⟨"integration-bot", "widgets", "helicone-integration-abc123",
            "main", "[REVIEW] Add Helicone observability integration",
            formatReviewPRBody sampleInput sampleClaude⟩,
          .report ⟨"abc123", "awaiting_review", "Review PR created. Awaiting review...",
            some "https://github.com/pr/7", none⟩,
          .resetDecision, .waitReview,
          .report ⟨"abc123", "failed", "Review timed out after 7 days.", none, none⟩],
         fbIdx := 0, decIdx := 1 }, .ok ()) := by
  simp [runIntegrationWorkflow, repositoryIntegrationWorkflow, tryCatchW,
    integrationMain, setupRepository, performIntegration, runClaudeIntegration,
    createReviewPullRequest, waitForReview, reviewLoop, stagingBranchName,
    wf_bind_apply, wf_pure_apply, updateIntegrationStatus, forkRepository,
    cloneRepository, runClaudeCode, createStagingBranchCall, createPullRequest,
    awaitDecision, emit, timeoutEnv, approveEnv, sampleInput, sampleFork,
    sampleClaude]

/-- Claim **C3, amended.**  When the `try` body raises (a fatal leaf-call error),
the orchestrator reports `failed` ("Integration failed: ...") and re-raises
the same error.  But the two `return null` failure paths behave differently:
after a review timeout, and after a feedback application that produced no
changes, the orchestrator reports `failed` and then the workflow function
returns normally — no error reaches the hosting runtime. -/
theorem failed_phase_error_paths :
    (∀ (env : Env) (input : RepositoryIntegrationInput) (s1 : WfState) (e : String),
      integrationMain input env {} = (s1, .error e) →
      env.report ⟨input.integrationId, "failed", "Integration failed: " ++ e, none, none⟩ = .ok () →
      runIntegrationWorkflow env input =
        ({ s1 with trace := s1.trace ++
            [.report ⟨input.integrationId, "failed", "Integration failed: " ++ e, none, none⟩] },
          .error e)) ∧
    (runIntegrationWorkflow timeoutEnv sampleInput).2 = .ok () ∧
    (.report ⟨"abc123", "failed", "Review timed out after 7 days.", none, none⟩
      ∈ (runIntegrationWorkflow timeoutEnv sampleInput).1.trace) ∧
    (runIntegrationWorkflow feedbackNoChangesEnv sampleInput).2 = .ok () ∧
    (.report ⟨"abc123", "failed", "Failed to apply feedback: No changes were made in response to the feedback", none, none⟩
      ∈ (runIntegrationWorkflow feedbackNoChangesEnv sampleInput).1.trace) := by
  refine ⟨?_, ?_, ?_, ?_, ?_⟩
  · intro env input s1 e hmain hrep
    simp [runIntegrationWorkflow, repositoryIntegrationWorkflow, tryCatchW,
      wf_bind_apply, wf_pure_apply, updateIntegrationStatus, throwErr,
      hmain, hrep]
  · simp [runIntegrationWorkflow, repositoryIntegrationWorkflow, tryCatchW,
      integrationMain, setupRepository, performIntegration, runClaudeIntegration,
      createReviewPullRequest, waitForReview, reviewLoop, stagingBranchName,
      wf_bind_apply, wf_pure_apply, updateIntegrationStatus, forkRepository,
      cloneRepository, runClaudeCode, createStagingBranchCall, createPullRequest,
      awaitDecision, emit, timeoutEnv, approveEnv, sampleInput, sampleFork,
      sampleClaude]
  · simp [runIntegrationWorkflow, repositoryIntegrationWorkflow, tryCatchW,
      integrationMain, setupRepository, performIntegration, runClaudeIntegration,
      createReviewPullRequest, waitForReview, reviewLoop, stagingBranchName,
      wf_bind_apply, wf_pure_apply, updateIntegrationStatus, forkRepository,
      cloneRepository, runClaudeCode, createStagingBranchCall, createPullRequest,
      awaitDecision, emit, timeoutEnv, approveEnv, sampleInput, sampleFork,
      sampleClaude]
  · simp [runIntegrationWorkflow, repositoryIntegrationWorkflow, tryCatchW,
      integrationMain, setupRepository, performIntegration, runClaudeIntegration,
      createReviewPullRequest, waitForReview, reviewLoop, stagingBranchName,
      feedbackMissing, wf_bind_apply, wf_pure_apply, updateIntegrationStatus,
      forkRepository, cloneRepository, runClaudeCode, createStagingBranchCall,
      createPullRequest, applyClaudeCodeFeedback, awaitDecision, emit,
      feedbackNoChangesEnv, alwaysRejectEnv, approveEnv, sampleInput, sampleFork,
      sampleClaude]
  · simp [runIntegrationWorkflow, repositoryIntegrationWorkflow, tryCatchW,
      integrationMain, setupRepository, performIntegration, runClaudeIntegration,
      createReviewPullRequest, waitForReview, reviewLoop, stagingBranchName,
      feedbackMissing, wf_bind_apply, wf_pure_apply, updateIntegrationStatus,
      forkRepository, cloneRepository, runClaudeCode, createStagingBranchCall,
      createPullRequest, applyClaudeCodeFeedback, awaitDecision, emit,
      feedbackNoChangesEnv, alwaysRejectEnv, approveEnv, sampleInput, sampleFork,
      sampleClaude]

theorem failed_phase_error_paths_witness :
    runIntegrationWorkflow reportFailEnv sampleInput =
      ({ trace := [
          .report ⟨"abc123", "forking", "Forking repository...", none, none⟩,
          .report ⟨"abc123", "failed", "Integration failed: status reporter unavailable", none, none⟩],
         fbIdx := 0, decIdx := 0 }, .error "status reporter unavailable") := by
  have h := failed_phase_error_paths.1 reportFailEnv sampleInput
    ⟨[.report ⟨"abc123", "forking", "Forking repository...", none, none⟩], 0, 0⟩
    "status reporter unavailable"
    (by simp [integrationMain, setupRepository, wf_bind_apply,
      updateIntegrationStatus, reportFailEnv, approveEnv, sampleInput])
    rfl
  simpa [sampleInput] using h

end HeliconeIntegration

namespace HeliconeIntegration

/-- Claim **C1.** The attempt ordinal starts at 1 and never exceeds 3: at ordinal 3
the loop guard fails immediately (no further suspension, no 4th agent
invocation — the immediate result is `maxedOut 3`, which `performIntegration`
turns into the terminal `rejected` outcome); over any whole run the initial
agent activity is invoked at most once and the feedback activity at most
twice; an approval exit always carries an ordinal in `[1, 3]` and the
guard-failure exit carries exactly 3; and a run whose reviewer always
rejects with feedback ends in the error "Maximum feedback attempts reached"
after exactly 2 feedback invocations (3 agent invocations in total), with
the `rejected` status reported with that message. -/
theorem attempt_ordinal_bounded :
    (∀ (input : RepositoryIntegrationInput) (repoPath branchName : String)
        (sessionId : Option String) (env : Env) (s : WfState),
      reviewLoop input repoPath branchName sessionId 0 3 env s
        = (s, .ok (.maxedOut 3))) ∧
    (∀ (input : RepositoryIntegrationInput) (env : Env),
      (runIntegrationWorkflow env input).1.trace.countP isClaudeCall ≤ 1 ∧
      (runIntegrationWorkflow env input).1.trace.countP isFeedbackCall ≤ 2) ∧
    (∀ (input : RepositoryIntegrationInput) (repoPath branchName : String)
        (sessionId : Option String) (env : Env) (s : WfState) (n : Nat),
      (reviewLoop input repoPath branchName sessionId 2 1 env s).2
          = .ok (.approved n) → 1 ≤ n ∧ n ≤ 3) ∧
    (∀ (input : RepositoryIntegrationInput) (repoPath branchName : String)
        (sessionId : Option String) (env : Env) (s : WfState) (n : Nat),
      (reviewLoop input repoPath branchName sessionId 2 1 env s).2
          = .ok (.maxedOut n) → n = 3) ∧
    (runIntegrationWorkflow alwaysRejectEnv sampleInput).2
      = .error "Maximum feedback attempts reached" ∧
    (runIntegrationWorkflow alwaysRejectEnv sampleInput).1.trace.countP isFeedbackCall = 2 ∧
    (runIntegrationWorkflow alwaysRejectEnv sampleInput).1.trace.countP isClaudeCall = 1 ∧
    .report ⟨"abc123", "rejected", "Maximum feedback attempts reached", none, none⟩
      ∈ (runIntegrationWorkflow alwaysRejectEnv sampleInput).1.trace := by
  refine ⟨?_, ?_, ?_, ?_, ?_, ?_, ?_, ?_⟩
  · intro input repoPath branchName sessionId env s
    simp [reviewLoop, wf_pure_apply]
  · intro input env
    obtain ⟨d, h, hc, k, hk, hfb⟩ := traceDelta_workflow input env
    rw [h]
    refine ⟨hc, ?_⟩
    rw [countP_isFeedbackCall_eq, hfb]
    simp
    omega
  · intro input repoPath branchName sessionId env s n hn
    obtain ⟨d, k, h1, hk, hfb, hcc, hap, hmx⟩ :=
      reviewLoop_delta input repoPath branchName sessionId 2 1 env s
    have := hap n hn
    omega
  · intro input repoPath branchName sessionId env s n hn
    obtain ⟨d, k, h1, hk, hfb, hcc, hap, hmx⟩ :=
      reviewLoop_delta input repoPath branchName sessionId 2 1 env s
    have := hmx n hn
    omega
  · simp [runIntegrationWorkflow, repositoryIntegrationWorkflow, tryCatchW,
      integrationMain, setupRepository, performIntegration, runClaudeIntegration,
      createReviewPullRequest, waitForReview, reviewLoop, stagingBranchName,
      feedbackMissing, wf_bind_apply, wf_pure_apply, updateIntegrationStatus,
      forkRepository, cloneRepository, runClaudeCode, createStagingBranchCall,
      createPullRequest, applyClaudeCodeFeedback, awaitDecision, emit, throwErr,
      alwaysRejectEnv, approveEnv, sampleInput, sampleFork, sampleClaude]
  · simp [runIntegrationWorkflow, repositoryIntegrationWorkflow, tryCatchW,
      integrationMain, setupRepository, performIntegration, runClaudeIntegration,
      createReviewPullRequest, waitForReview, reviewLoop, stagingBranchName,
      feedbackMissing, wf_bind_apply, wf_pure_apply, updateIntegrationStatus,
      forkRepository, cloneRepository, runClaudeCode, createStagingBranchCall,
      createPullRequest, applyClaudeCodeFeedback, awaitDecision, emit, throwErr,
      alwaysRejectEnv, approveEnv, sampleInput, sampleFork, sampleClaude,
      isFeedbackCall, List.countP_cons]
  · simp [runIntegrationWorkflow, repositoryIntegrationWorkflow, tryCatchW,
      integrationMain, setupRepository, performIntegration, runClaudeIntegration,
      createReviewPullRequest, waitForReview, reviewLoop, stagingBranchName,
      feedbackMissing, wf_bind_apply, wf_pure_apply, updateIntegrationStatus,
      forkRepository, cloneRepository, runClaudeCode, createStagingBranchCall,
      createPullRequest, applyClaudeCodeFeedback, awaitDecision, emit, throwErr,
      alwaysRejectEnv, approveEnv, sampleInput, sampleFork, sampleClaude,
      isClaudeCall, List.countP_cons]
  · simp [runIntegrationWorkflow, repositoryIntegrationWorkflow, tryCatchW,
      integrationMain, setupRepository, performIntegration, runClaudeIntegration,
      createReviewPullRequest, waitForReview, reviewLoop, stagingBranchName,
      feedbackMissing, wf_bind_apply, wf_pure_apply, updateIntegrationStatus,
      forkRepository, cloneRepository, runClaudeCode, createStagingBranchCall,
      createPullRequest, applyClaudeCodeFeedback, awaitDecision, emit, throwErr,
      alwaysRejectEnv, approveEnv, sampleInput, sampleFork, sampleClaude]

theorem attempt_ordinal_bounded_witness : 1 ≤ 1 ∧ 1 ≤ 3 :=
  attempt_ordinal_bounded.2.2.1 sampleInput "/tmp/helicone-integration-1"
    "helicone-integration-abc123" (some "sess-1") approveEnv {} 1
    (by simp [reviewLoop, waitForReview, wf_bind_apply, wf_pure_apply,
      updateIntegrationStatus, awaitDecision, emit, approveEnv])

/-- Claim **C2, counterexample.**  With a reviewer who always rejects with
feedback, both feedback applications succeed, yet the run suspends only
twice: after the second successful application the orchestrator reports
`awaiting_review` but immediately terminates `rejected` ("Maximum feedback
attempts reached") without a third suspension — so "for every loop iteration
in which applying_feedback succeeds ... suspending until a new
ReviewDecision arrives or the 7-day deadline elapses" is false at this
input. -/
theorem feedback_success_no_suspend_cex :
    (runIntegrationWorkflow alwaysRejectEnv sampleInput).1.trace.filterMap reportStatus
      = ["forking", "cloning", "integrating", "pushing", "creating_review_pr",
         "awaiting_review", "applying_feedback", "awaiting_review",
         "applying_feedback", "awaiting_review", "rejected", "failed"] ∧
    (runIntegrationWorkflow alwaysRejectEnv sampleInput).1.trace.countP isWaitReview = 2 ∧
    (runIntegrationWorkflow alwaysRejectEnv sampleInput).1.trace.countP isFeedbackCall = 2 ∧
    (runIntegrationWorkflow alwaysRejectEnv sampleInput).2
      = .error "Maximum feedback attempts reached" := by
  refine ⟨?_, ?_, ?_, ?_⟩ <;>
    simp [runIntegrationWorkflow, repositoryIntegrationWorkflow, tryCatchW,
      integrationMain, setupRepository, performIntegration, runClaudeIntegration,
      createReviewPullRequest, waitForReview, reviewLoop, stagingBranchName,
      feedbackMissing, wf_bind_apply, wf_pure_apply, updateIntegrationStatus,
      forkRepository, cloneRepository, runClaudeCode, createStagingBranchCall,
      createPullRequest, applyClaudeCodeFeedback, awaitDecision, emit, throwErr,
      alwaysRejectEnv, approveEnv, sampleInput, sampleFork, sampleClaude,
      reportStatus, isWaitReview, isFeedbackCall, List.countP_cons]

/-- Claim **C2, amended.**  A successful feedback application that raises the
ordinal to 2 (the first) reports `awaiting_review` and re-enters the loop —
whose next iteration clears the decision slot, suspends, and honours a new
decision or the 7-day deadline (the timeout conjunct).  But the successful
feedback application that raises the ordinal to 3 (the second) reports
`awaiting_review` and then the loop ends at once with `maxedOut 3`
(rejected, "Maximum feedback attempts reached") — no further clearing or
suspension. -/
theorem feedback_success_resume_amended :
    (∀ (input : RepositoryIntegrationInput) (repoPath branchName : String)
        (sessionId : Option String) (env : Env) (s : WfState) (fb sum : String),
      env.decisions s.decIdx = some ⟨false, some fb⟩ →
      feedbackMissing (some fb) = false →
      env.feedback s.fbIdx = .ok ⟨true, sum⟩ →
      (∀ u, env.report u = .ok ()) →
      reviewLoop input repoPath branchName sessionId 2 1 env s =
        reviewLoop input repoPath branchName sessionId 1 2 env
          ⟨s.trace ++ [.resetDecision, .waitReview,
            .report ⟨input.integrationId, "applying_feedback",
              "Applying feedback (attempt " ++ toString 2 ++ ")...", none, none⟩,
            .callFeedback repoPath sessionId fb branchName,
            .report ⟨input.integrationId, "awaiting_review",
              "Feedback applied. Awaiting re-review...", none, none⟩],
            s.fbIdx + 1, s.decIdx + 1⟩) ∧
    (∀ (input : RepositoryIntegrationInput) (repoPath branchName : String)
        (sessionId : Option String) (env : Env) (s : WfState) (fb sum : String),
      env.decisions s.decIdx = some ⟨false, some fb⟩ →
      feedbackMissing (some fb) = false →
      env.feedback s.fbIdx = .ok ⟨true, sum⟩ →
      (∀ u, env.report u = .ok ()) →
      reviewLoop input repoPath branchName sessionId 1 2 env s =
        (⟨s.trace ++ [.resetDecision, .waitReview,
          .report ⟨input.integrationId, "applying_feedback",
            "Applying feedback (attempt " ++ toString 3 ++ ")...", none, none⟩,
          .callFeedback repoPath sessionId fb branchName,
          .report ⟨input.integrationId, "awaiting_review",
            "Feedback applied. Awaiting re-review...", none, none⟩],
          s.fbIdx + 1, s.decIdx + 1⟩, .ok (.maxedOut 3))) ∧
    (∀ (input : RepositoryIntegrationInput) (repoPath branchName : String)
        (sessionId : Option String) (env : Env) (s : WfState),
      env.decisions s.decIdx = none →
      (∀ u, env.report u = .ok ()) →
      reviewLoop input repoPath branchName sessionId 1 2 env s =
        (⟨s.trace ++ [.resetDecision, .waitReview,
          .report ⟨input.integrationId, "failed", "Review timed out after 7 days.", none, none⟩],
          s.fbIdx, s.decIdx + 1⟩, .ok .timedOut)) := by
  refine ⟨?_, ?_, ?_⟩
  · intro input repoPath branchName sessionId env s fb sum hd hfm hf hrep
    simp [reviewLoop, waitForReview, wf_bind_apply, wf_pure_apply,
      updateIntegrationStatus, applyClaudeCodeFeedback, awaitDecision, emit,
      hd, hfm, hf, hrep]
  · intro input repoPath branchName sessionId env s fb sum hd hfm hf hrep
    simp [reviewLoop, waitForReview, wf_bind_apply, wf_pure_apply,
      updateIntegrationStatus, applyClaudeCodeFeedback, awaitDecision, emit,
      hd, hfm, hf, hrep]
  · intro input repoPath branchName sessionId env s hd hrep
    simp [reviewLoop, waitForReview, wf_bind_apply, wf_pure_apply,
      updateIntegrationStatus, awaitDecision, emit, hd, hrep]

theorem feedback_success_resume_amended_witness :
    reviewLoop sampleInput "/tmp/helicone-integration-1"
        "helicone-integration-abc123" (some "sess-1") 2 1 alwaysRejectEnv {} =
      reviewLoop sampleInput "/tmp/helicone-integration-1"
        "helicone-integration-abc123" (some "sess-1") 1 2 alwaysRejectEnv
        ⟨[.resetDecision, .waitReview,
          .report ⟨"abc123", "applying_feedback",
            "Applying feedback (attempt " ++ toString 2 ++ ")...", none, none⟩,
          .callFeedback "/tmp/helicone-integration-1" (some "sess-1")
            "add error handling" "helicone-integration-abc123",
          .report ⟨"abc123", "awaiting_review",
            "Feedback applied. Awaiting re-review...", none, none⟩], 1, 1⟩ := by
  have h := feedback_success_resume_amended.1 sampleInput
    "/tmp/helicone-integration-1" "helicone-integration-abc123" (some "sess-1")
    alwaysRejectEnv {} "add error handling" "applied" rfl (by decide) rfl
    (fun _ => rfl)
  simpa [sampleInput] using h

/-- Claim **C6.** The staging branch name is a pure function of the integration
identifier alone; in every run, all feedback pushes target that one branch
(the whole-run feedback-branch list is a replication of it); and in a
concrete two-feedback run the review PR's head and both feedback pushes are
the same string `helicone-integration-abc123`. -/
theorem staging_branch_deterministic :
    (∀ i i' : RepositoryIntegrationInput, i.integrationId = i'.integrationId →
      stagingBranchName i = stagingBranchName i') ∧
    (∀ (input : RepositoryIntegrationInput) (env : Env), ∃ k, k ≤ 2 ∧
      (runIntegrationWorkflow env input).1.trace.filterMap feedbackBranch
        = List.replicate k (stagingBranchName input)) ∧
    stagingBranchName sampleInput = "helicone-integration-abc123" ∧
    (runIntegrationWorkflow alwaysRejectEnv sampleInput).1.trace.filterMap
      (fun e => match e with
        | .callCreatePR req =>
          if req.title = "[REVIEW] Add Helicone observability integration"
          then some req.head else none
        | _ => none) = [stagingBranchName sampleInput] ∧
    (runIntegrationWorkflow alwaysRejectEnv sampleInput).1.trace.filterMap
      feedbackBranch
      = [stagingBranchName sampleInput, stagingBranchName sampleInput] := by
  refine ⟨?_, ?_, rfl, ?_, ?_⟩
  · intro i i' h
    unfold stagingBranchName
    rw [h]
  · intro input env
    obtain ⟨d, h, hc, k, hk, hfb⟩ := traceDelta_workflow input env
    exact ⟨k, hk, by rw [h, hfb]⟩
  · simp [runIntegrationWorkflow, repositoryIntegrationWorkflow, tryCatchW,
      integrationMain, setupRepository, performIntegration, runClaudeIntegration,
      createReviewPullRequest, waitForReview, reviewLoop, stagingBranchName,
      feedbackMissing, wf_bind_apply, wf_pure_apply, updateIntegrationStatus,
      forkRepository, cloneRepository, runClaudeCode, createStagingBranchCall,
      createPullRequest, applyClaudeCodeFeedback, awaitDecision, emit, throwErr,
      alwaysRejectEnv, approveEnv, sampleInput, sampleFork, sampleClaude]
  · simp [runIntegrationWorkflow, repositoryIntegrationWorkflow, tryCatchW,
      integrationMain, setupRepository, performIntegration, runClaudeIntegration,
      createReviewPullRequest, waitForReview, reviewLoop, stagingBranchName,
      feedbackMissing, wf_bind_apply, wf_pure_apply, updateIntegrationStatus,
      forkRepository, cloneRepository, runClaudeCode, createStagingBranchCall,
      createPullRequest, applyClaudeCodeFeedback, awaitDecision, emit, throwErr,
      alwaysRejectEnv, approveEnv, sampleInput, sampleFork, sampleClaude,
      feedbackBranch]

theorem staging_branch_deterministic_witness :
    stagingBranchName sampleInput
      = stagingBranchName ⟨"https://github.com/other/clone", "other", "clone", "abc123"⟩ :=
  staging_branch_deterministic.1 sampleInput
    ⟨"https://github.com/other/clone", "other", "clone", "abc123"⟩ rfl

end HeliconeIntegration
